import Mathlib

set_option maxRecDepth 40000

/-!
Verification development for the scrobbledb ingestion-and-consistency pipeline.

The definitions below are a shallow embedding of the core of
`src/scrobbledb/lastfm.py` and `src/scrobbledb/domain_queries.py`:

* MD5 and UTF-8, executable, used by the deterministic identity synthesis
  (`hashlib.md5(...).hexdigest()` / `str.encode("utf8")` in the source);
* the scrobble normalizer (`normalize_field_name`, `synthesize_mbids`,
  `parse_scrobble_dict`);
* the storage model: the four entity tables plus the FTS5 projection
  `tracks_fts`, the triggers installed by `setup_fts5`, the `sqlite_utils`
  upserts used by `save_artist` / `save_album` / `save_track` / `save_play`
  (an upsert is `INSERT OR IGNORE` followed by `UPDATE` on the primary key,
  each firing the corresponding `AFTER INSERT` / `AFTER UPDATE` trigger),
  and `rebuild_fts5`;
* the ingestion engine `add_scrobbles` with sampling, limiting and
  duplicate skipping;
* the read-side queries `get_artists_by_search`, `get_top_artists`,
  `get_artist_details`;
* the paginated fetcher loop of `recent_tracks`.

External collaborators (the SQLite engine's FTS5 `MATCH` operator, the
`rapidfuzz` similarity score, the `random` stream seeded by `random.seed`,
the network page source, and `datetime` day arithmetic) are passed in as
parameters, mirroring how the source calls out to them.
-/

namespace Scrobbledb

/-! ## MD5 over byte lists, as `hashlib.md5` -/

/-- Truncate to 32 bits. -/
def m32 (n : Nat) : Nat := n % 4294967296

/-- Rotate a 32-bit word left by `s` bits. -/
def rotl32 (x s : Nat) : Nat := m32 ((x <<< s) ||| (x >>> (32 - s)))

/-- Bitwise complement on 32 bits. -/
def not32 (x : Nat) : Nat := 4294967295 - x

/-- Per-round shift amounts of MD5. -/
def md5S : List Nat :=
  [7,12,17,22,7,12,17,22,7,12,17,22,7,12,17,22,
   5,9,14,20,5,9,14,20,5,9,14,20,5,9,14,20,
   4,11,16,23,4,11,16,23,4,11,16,23,4,11,16,23,
   6,10,15,21,6,10,15,21,6,10,15,21,6,10,15,21]

/-- Sine-derived constant table of MD5. -/
def md5K : List Nat :=
  [0xd76aa478, 0xe8c7b756, 0x242070db, 0xc1bdceee,
   0xf57c0faf, 0x4787c62a, 0xa8304613, 0xfd469501,
   0x698098d8, 0x8b44f7af, 0xffff5bb1, 0x895cd7be,
   0x6b901122, 0xfd987193, 0xa679438e, 0x49b40821,
   0xf61e2562, 0xc040b340, 0x265e5a51, 0xe9b6c7aa,
   0xd62f105d, 0x02441453, 0xd8a1e681, 0xe7d3fbc8,
   0x21e1cde6, 0xc33707d6, 0xf4d50d87, 0x455a14ed,
   0xa9e3e905, 0xfcefa3f8, 0x676f02d9, 0x8d2a4c8a,
   0xfffa3942, 0x8771f681, 0x6d9d6122, 0xfde5380c,
   0xa4beea44, 0x4bdecfa9, 0xf6bb4b60, 0xbebfbc70,
   0x289b7ec6, 0xeaa127fa, 0xd4ef3085, 0x04881d05,
   0xd9d4d039, 0xe6db99e5, 0x1fa27cf8, 0xc4ac5665,
   0xf4292244, 0x432aff97, 0xab9423a7, 0xfc93a039,
   0x655b59c3, 0x8f0ccc92, 0xffeff47d, 0x85845dd1,
   0x6fa87e4f, 0xfe2ce6e0, 0xa3014314, 0x4e0811a1,
   0xf7537e82, 0xbd3af235, 0x2ad7d2bb, 0xeb86d391]

/-- Group a byte list into 32-bit little-endian words. -/
def bytesToWords : List Nat → List Nat
  | b0 :: b1 :: b2 :: b3 :: rest =>
      (b0 ||| (b1 <<< 8) ||| (b2 <<< 16) ||| (b3 <<< 24)) :: bytesToWords rest
  | _ => []

/-- Round `i` of the MD5 compression function on state `(a, b, c, d)`. -/
def md5Step (M : List Nat) (st : Nat × Nat × Nat × Nat) (i : Nat) : Nat × Nat × Nat × Nat :=
  let (a, b, c, d) := st
  let (f, g) :=
    if i < 16 then ((b &&& c) ||| ((not32 b) &&& d), i)
    else if i < 32 then ((d &&& b) ||| ((not32 d) &&& c), (5 * i + 1) % 16)
    else if i < 48 then (b ^^^ c ^^^ d, (3 * i + 5) % 16)
    else (c ^^^ (b ||| (not32 d)), (7 * i) % 16)
  let f := m32 (f + a + md5K.getD i 0 + M.getD g 0)
  (d, m32 (b + rotl32 f (md5S.getD i 0)), b, c)

/-- Process one 64-byte block. -/
def md5Block (st : Nat × Nat × Nat × Nat) (block : List Nat) : Nat × Nat × Nat × Nat :=
  let M := bytesToWords block
  let (a0, b0, c0, d0) := st
  let (a, b, c, d) := (List.range 64).foldl (md5Step M) st
  (m32 (a0 + a), m32 (b0 + b), m32 (c0 + c), m32 (d0 + d))

/-- Split into 64-byte chunks; `fuel` bounds the number of chunks. -/
def chunks64 (fuel : Nat) (l : List Nat) : List (List Nat) :=
  match fuel with
  | 0 => []
  | fuel + 1 =>
      match l with
      | [] => []
      | _ => l.take 64 :: chunks64 fuel (l.drop 64)

/-- Pad as MD5 does: a 0x80 byte, zeros to 56 mod 64, then the 64-bit
little-endian bit length. -/
def md5Pad (msg : List Nat) : List Nat :=
  let bitLen := (8 * msg.length) % 18446744073709551616
  let padLen := (55 + 64 - (msg.length % 64)) % 64 + 1
  msg ++ (0x80 :: List.replicate (padLen - 1) 0) ++
    ((List.range 8).map fun i => (bitLen >>> (8 * i)) % 256)

/-- Digest of a byte list as a list of 16 bytes. -/
def md5Digest (msg : List Nat) : List Nat :=
  let padded := md5Pad msg
  let (a, b, c, d) := (chunks64 (padded.length) padded).foldl md5Block
    (0x67452301, 0xefcdab89, 0x98badcfe, 0x10325476)
  [a, b, c, d].flatMap fun w => (List.range 4).map fun i => (w >>> (8 * i)) % 256

/-- Lowercase hexadecimal digit. -/
def hexDigitChar (n : Nat) : Char := if n < 10 then Char.ofNat (48 + n) else Char.ofNat (87 + n)

/-- Two lowercase hexadecimal digits of one byte. -/
def byteToHex (b : Nat) : List Char := [hexDigitChar (b / 16), hexDigitChar (b % 16)]

/-- Lowercase hex digest of a byte list, as `hashlib.md5(bytes).hexdigest()`. -/
def md5HexBytes (msg : List Nat) : String :=
  ⟨(md5Digest msg).flatMap byteToHex⟩

/-- UTF-8 encoding of one character, as Python `str.encode("utf8")` does per
code point. -/
def utf8Char (c : Char) : List Nat :=
  let n := c.toNat
  if n < 0x80 then [n]
  else if n < 0x800 then [0xc0 ||| (n >>> 6), 0x80 ||| (n &&& 0x3f)]
  else if n < 0x10000 then
    [0xe0 ||| (n >>> 12), 0x80 ||| ((n >>> 6) &&& 0x3f), 0x80 ||| (n &&& 0x3f)]
  else
    [0xf0 ||| (n >>> 18), 0x80 ||| ((n >>> 12) &&& 0x3f),
     0x80 ||| ((n >>> 6) &&& 0x3f), 0x80 ||| (n &&& 0x3f)]

/-- UTF-8 encoding of a string. -/
def utf8Encode (s : String) : List Nat := s.data.flatMap utf8Char

/-- Hex digest of the MD5 of a string's UTF-8 bytes,
`hashlib.md5(s.encode("utf8")).hexdigest()`. -/
def md5Hex (s : String) : String := md5HexBytes (utf8Encode s)

/-! ## Data model

Rows of the four authoritative tables and of the `tracks_fts` projection,
per the schema written by `save_artist` / `save_album` / `save_track` /
`save_play` and `setup_fts5` in `lastfm.py`.  Timestamps are the isoformat
strings SQLite stores (datetimes are serialized by `sqlite_utils` on write
and compared as strings in SQL). -/

structure Artist where
  id : String
  name : String
deriving DecidableEq, Repr

structure Album where
  id : String
  title : String
  artist_id : String
deriving DecidableEq, Repr

structure Track where
  id : String
  title : String
  album_id : String
deriving DecidableEq, Repr

structure Play where
  timestamp : String
  track_id : String
deriving DecidableEq, Repr

structure FtsRow where
  artist_name : String
  album_title : String
  track_title : String
  artist_id : String
  album_id : String
  track_id : String
deriving DecidableEq, Repr

structure Database where
  artists : List Artist
  albums : List Album
  tracks : List Track
  plays : List Play
  tracks_fts : List FtsRow
deriving DecidableEq, Repr

/-- Empty database. -/
def emptyDB : Database := ⟨[], [], [], [], []⟩

/-! ## Scrobble normalizer (`lastfm.py`) -/

/-- Field name aliases for flexible input parsing (module-level
`FIELD_ALIASES` table; the list order is the dict iteration order). -/
def FIELD_ALIASES : List (String × List String) :=
  [("timestamp", ["timestamp", "time", "played_at", "date", "datetime", "when"]),
   ("artist", ["artist", "artist_name", "artistname"]),
   ("album", ["album", "album_title", "albumtitle", "album_name"]),
   ("track", ["track", "track_title", "tracktitle", "song", "title", "track_name", "name"]),
   ("artist_mbid", ["artist_mbid", "artist_id"]),
   ("album_mbid", ["album_mbid", "album_id"]),
   ("track_mbid", ["track_mbid", "track_id"])]

/-- Whitespace stripped by Python `str.strip()` (ASCII subset). -/
def isSpaceChar (c : Char) : Bool :=
  c == ' ' || c == '\t' || c == '\n' || c == '\r' || c == '\x0b' || c == '\x0c'

/-- Model of Python `str.strip()`: drop leading and trailing whitespace. -/
def pyStrip (s : String) : String :=
  ⟨((s.data.dropWhile isSpaceChar).reverse.dropWhile isSpaceChar).reverse⟩

/-- ASCII lowering of one character. -/
def lowerChar (c : Char) : Char :=
  if 65 ≤ c.toNat && c.toNat ≤ 90 then Char.ofNat (c.toNat + 32) else c

/-- Model of Python `str.lower()` (ASCII; also models SQLite's
ASCII-case-insensitive `LIKE`). -/
def pyLower (s : String) : String := ⟨s.data.map lowerChar⟩

/-- Normalize a field name to canonical form using aliases
(`normalize_field_name`). -/
def normalize_field_name (field : String) : String :=
  let fieldLower := pyStrip (pyLower field)
  match FIELD_ALIASES.find? (fun ca => ca.2.contains fieldLower) with
  | some ca => ca.1
  | none => field

/-- Update-or-append on an association list; models assignment into the
Python dict `normalized` (later keys overwrite earlier ones). -/
def assocSet (l : List (String × String)) (k v : String) : List (String × String) :=
  if l.any (fun kv => kv.1 == k) then
    l.map (fun kv => if kv.1 == k then (k, v) else kv)
  else l ++ [(k, v)]

/-- Lookup on an association list (Python `dict.get`). -/
def assocGet (l : List (String × String)) (k : String) : Option String :=
  (l.find? (fun kv => kv.1 == k)).map (fun kv => kv.2)

/-- Lookup with default (Python `dict.get(k, d)`). -/
def assocGetD (l : List (String × String)) (k : String) (d : String) : String :=
  (assocGet l k).getD d

/-- Normalized dict built by the first loop of `parse_scrobble_dict`:
every key is passed through `normalize_field_name`, the last write wins.
Input records are modelled as lists of string key/value pairs. -/
def normalizeRecord (data : List (String × String)) : List (String × String) :=
  data.foldl (fun acc kv => assocSet acc (normalize_field_name kv.1) kv.2) []

/-- Model of `parse_timestamp` on its Unix-epoch branch: a string of decimal
digits is `datetime.fromtimestamp(float(s), tz=utc)`, here the epoch second
count itself.  The strptime-format list and the dateutil fallback are not
modelled; inputs outside this domain are treated as unparseable (`none`,
modelling the raised `ValueError`).  No claim settled here depends on which
branch produced the timestamp value. -/
def parse_timestamp (s : String) : Option Nat :=
  if !s.data.isEmpty && s.data.all Char.isDigit then
    some (s.data.foldl (fun acc c => acc * 10 + (c.toNat - 48)) 0)
  else none

/-- Generate MD5-based MBIDs for artist, album, and track
(`synthesize_mbids`; the incremental `h.update` calls hash the
concatenation of the UTF-8 byte strings). -/
def synthesize_mbids (artist_name album_title track_title : String) :
    String × String × String :=
  let artist_mbid := "md5:" ++ md5HexBytes (utf8Encode artist_name)
  let album_mbid := "md5:" ++ md5HexBytes (utf8Encode artist_mbid ++ utf8Encode album_title)
  let track_mbid := "md5:" ++ md5HexBytes (utf8Encode album_mbid ++ utf8Encode track_title)
  (artist_mbid, album_mbid, track_mbid)

/-- Parsed scrobble record, the structure returned by `parse_scrobble_dict`
(and `_extract_track_data`): dicts ready for the four upserts.  The play
timestamp here is the parsed epoch value. -/
structure ParsedScrobble where
  artist : Artist
  album : Album
  track : Track
  play_track_id : String
  play_timestamp : Nat
deriving DecidableEq, Repr

/-- Parse a dictionary into the scrobble data structure
(`parse_scrobble_dict`).  A raised `ValueError` (missing required field,
unparseable timestamp) is modelled as `none`; error message strings and the
optional line number are not modelled. -/
def parse_scrobble_dict (data : List (String × String)) : Option ParsedScrobble :=
  let normalized := normalizeRecord data
  -- required fields: present and non-empty (Python truthiness on the value)
  if (["timestamp", "artist", "track"].all fun f => !(assocGetD normalized f "" == "")) then
    (parse_timestamp (assocGetD normalized "timestamp" "")).map fun ts =>
      let artist_name := pyStrip (assocGetD normalized "artist" "")
      let track_title := pyStrip (assocGetD normalized "track" "")
      let album_title0 := pyStrip (assocGetD normalized "album" "(unknown album)")
      let album_title := if album_title0 == "" then "(unknown album)" else album_title0
      let artist_mbid0 := assocGetD normalized "artist_mbid" ""
      let album_mbid0 := assocGetD normalized "album_mbid" ""
      let track_mbid0 := assocGetD normalized "track_mbid" ""
      let ids :=
        if artist_mbid0 == "" || album_mbid0 == "" || track_mbid0 == "" then
          let s := synthesize_mbids artist_name album_title track_title
          (if artist_mbid0 == "" then s.1 else artist_mbid0,
           if album_mbid0 == "" then s.2.1 else album_mbid0,
           if track_mbid0 == "" then s.2.2 else track_mbid0)
        else (artist_mbid0, album_mbid0, track_mbid0)
      { artist := ⟨ids.1, artist_name⟩,
        album := ⟨ids.2.1, album_title, ids.1⟩,
        track := ⟨ids.2.2, track_title, ids.2.1⟩,
        play_track_id := ids.2.2,
        play_timestamp := ts }
  else none

/-! ## Storage writes and the FTS5 projection (`setup_fts5`, `save_*`, `rebuild_fts5`)

`setup_fts5` installs, for each of the three entity tables, an
`AFTER INSERT`, an `AFTER UPDATE` and an `AFTER DELETE` trigger on
`tracks_fts`.  The `save_*` functions upsert through `sqlite_utils`, whose
upsert is `INSERT OR IGNORE` followed by an `UPDATE ... WHERE pk = ?` of the
non-pk columns; so a fresh row fires the insert trigger then the update
trigger, an existing row fires only the update trigger.  `plays` has all
columns in its primary key, so its upsert issues no `UPDATE` and the table
carries no triggers. -/

/-- Denormalized row as selected by the triggers and by `rebuild_fts5`:
`(artist_name, album_title, track_title, artist_id, album_id, track_id)`. -/
def mkRow (a : Artist) (al : Album) (t : Track) : FtsRow :=
  ⟨a.name, al.title, t.title, a.id, al.id, t.id⟩

/-- Rows selected by the `artists_ai` / `artists_au` trigger body:
`SELECT new.name, albums.title, tracks.title, new.id, albums.id, tracks.id
FROM albums JOIN tracks ON albums.id = tracks.album_id
WHERE albums.artist_id = new.id`. -/
def artistTriggerRows (db : Database) (a : Artist) : List FtsRow :=
  (db.albums.filter fun al => al.artist_id == a.id).flatMap fun al =>
    (db.tracks.filter fun t => t.album_id == al.id).map fun t =>
      ⟨a.name, al.title, t.title, a.id, al.id, t.id⟩

/-- Rows selected by the `albums_ai` / `albums_au` trigger body:
`SELECT artists.name, new.title, tracks.title, new.artist_id, new.id, tracks.id
FROM artists JOIN tracks ON tracks.album_id = new.id
WHERE artists.id = new.artist_id`. -/
def albumTriggerRows (db : Database) (al : Album) : List FtsRow :=
  (db.artists.filter fun a => a.id == al.artist_id).flatMap fun a =>
    (db.tracks.filter fun t => t.album_id == al.id).map fun t =>
      ⟨a.name, al.title, t.title, al.artist_id, al.id, t.id⟩

/-- Rows selected by the `tracks_ai` / `tracks_au` trigger body:
`SELECT artists.name, albums.title, new.title, artists.id, albums.id, new.id
FROM albums JOIN artists ON albums.artist_id = artists.id
WHERE albums.id = new.album_id`. -/
def trackTriggerRows (db : Database) (t : Track) : List FtsRow :=
  (db.albums.filter fun al => al.id == t.album_id).flatMap fun al =>
    (db.artists.filter fun a => a.id == al.artist_id).map fun a =>
      ⟨a.name, al.title, t.title, a.id, al.id, t.id⟩

/-- Body shared by `artists_ai` and `artists_au`: delete the artist's index
rows, re-derive them from the album/track join. -/
def artistsSyncTrigger (db : Database) (a : Artist) : Database :=
  { db with tracks_fts :=
      (db.tracks_fts.filter fun r => !(r.artist_id == a.id)) ++ artistTriggerRows db a }

/-- Body shared by `albums_ai` and `albums_au`. -/
def albumsSyncTrigger (db : Database) (al : Album) : Database :=
  { db with tracks_fts :=
      (db.tracks_fts.filter fun r => !(r.album_id == al.id)) ++ albumTriggerRows db al }

/-- Body of `tracks_ai`: the track insert trigger inserts without a
preceding delete. -/
def tracksInsertTrigger (db : Database) (t : Track) : Database :=
  { db with tracks_fts := db.tracks_fts ++ trackTriggerRows db t }

/-- Body of `tracks_au`: delete the track's index row, then re-insert. -/
def tracksUpdateTrigger (db : Database) (t : Track) : Database :=
  { db with tracks_fts :=
      (db.tracks_fts.filter fun r => !(r.track_id == t.id)) ++ trackTriggerRows db t }

/-- Upsert into `artists` (`save_artist`): `INSERT OR IGNORE` (firing
`artists_ai` when the row is fresh) then `UPDATE artists SET name = ?`
(firing `artists_au`). -/
def save_artist (db : Database) (a : Artist) : Database :=
  if db.artists.any fun x => x.id == a.id then
    artistsSyncTrigger
      { db with artists := db.artists.map fun x =>
          if x.id == a.id then { x with name := a.name } else x } a
  else
    artistsSyncTrigger (artistsSyncTrigger { db with artists := db.artists ++ [a] } a) a

/-- Upsert into `albums` (`save_album`). -/
def save_album (db : Database) (al : Album) : Database :=
  if db.albums.any fun x => x.id == al.id then
    albumsSyncTrigger
      { db with albums := db.albums.map fun x =>
          if x.id == al.id then { x with title := al.title, artist_id := al.artist_id } else x } al
  else
    albumsSyncTrigger (albumsSyncTrigger { db with albums := db.albums ++ [al] } al) al

/-- Upsert into `tracks` (`save_track`). -/
def save_track (db : Database) (t : Track) : Database :=
  if db.tracks.any fun x => x.id == t.id then
    tracksUpdateTrigger
      { db with tracks := db.tracks.map fun x =>
          if x.id == t.id then { x with title := t.title, album_id := t.album_id } else x } t
  else
    tracksUpdateTrigger (tracksInsertTrigger { db with tracks := db.tracks ++ [t] } t) t

/-- Upsert into `plays` (`save_play`): both columns form the primary key, so
the upsert inserts the row when the key is fresh and otherwise changes
nothing; `plays` carries no triggers. -/
def save_play (db : Database) (p : Play) : Database :=
  if db.plays.any fun q => q.timestamp == p.timestamp && q.track_id == p.track_id then db
  else { db with plays := db.plays ++ [p] }

/-- Rows selected by the `rebuild_fts5` backfill query:
`SELECT artists.name, albums.title, tracks.title, artists.id, albums.id, tracks.id
FROM tracks JOIN albums ON tracks.album_id = albums.id
JOIN artists ON albums.artist_id = artists.id`; the inner double join per
track coincides with the `tracks_ai` SELECT. -/
def rebuildRows (db : Database) : List FtsRow :=
  db.tracks.flatMap (trackTriggerRows db)

/-- Clear and regenerate the whole index (`rebuild_fts5`). -/
def rebuild_fts5 (db : Database) : Database :=
  { db with tracks_fts := rebuildRows db }

/-- One write through an entity upsert. -/
inductive WriteOp where
  | artist (a : Artist)
  | album (al : Album)
  | track (t : Track)
deriving DecidableEq, Repr

/-- Apply one upsert write. -/
def applyWrite (db : Database) : WriteOp → Database
  | .artist a => save_artist db a
  | .album al => save_album db al
  | .track t => save_track db t

/-- Apply a sequence of upsert writes. -/
def applyWrites (db : Database) (ops : List WriteOp) : Database :=
  ops.foldl applyWrite db

/-- Referential integrity of the entity tables: every track's album and
every such album's artist exist.  The ingestion engine guarantees this by
its artist-album-track write order. -/
def RefIntegrity (db : Database) : Prop :=
  ∀ t ∈ db.tracks, ∃ al ∈ db.albums,
    al.id = t.album_id ∧ ∃ a ∈ db.artists, a.id = al.artist_id

instance (db : Database) : Decidable (RefIntegrity db) := by
  unfold RefIntegrity; infer_instance

/-! ## Ingestion engine (`add_scrobbles`)

The sampling stream `random.random()` (driven by `random.seed`) and the
probability argument are external collaborators; they are modelled by a
stream `rand : Nat → α` over an arbitrary linear order, consumed once per
drawn record exactly when sampling is enabled.  The facts the source relies
on — `random.random()` always lands in `[0, 1)`, so it is `≥ 0.0` and
`< 1.0` — become hypotheses on the stream. -/

/-- Scrobble record as consumed by `add_scrobbles`: the four dicts produced
by the normalizer.  `play.timestamp` is the isoformat string
(`timestamp.isoformat()` in the duplicate check and the stored form). -/
structure Scrobble where
  artist : Artist
  album : Album
  track : Track
  play : Play
deriving DecidableEq, Repr

/-- Statistics dictionary returned by `add_scrobbles`.  The `errors` list is
omitted: the modelled upserts are total, so it is always empty. -/
structure IngestStats where
  total_processed : Nat
  sampled : Nat
  added : Nat
  skipped : Nat
  limit_reached : Bool
deriving DecidableEq, Repr

/-- Initial statistics. -/
def initStats : IngestStats := ⟨0, 0, 0, 0, false⟩

/-- Duplicate-detection key `(timestamp_str, track_id)`; the code reads the
timestamp from `scrobble["play"]` and the id from `scrobble["track"]`. -/
def scrobbleKey (s : Scrobble) : String × String := (s.play.timestamp, s.track.id)

/-- Per-record writes, in the order the loop body issues them:
artist, album, track, play. -/
def add_scrobble_writes (db : Database) (s : Scrobble) : Database :=
  save_play (save_track (save_album (save_artist db s.artist) s.album) s.track) s.play

/-- Limit test `limit is not None and stats["added"] >= limit`. -/
def limitHit (limit : Option Nat) (added : Nat) : Bool :=
  match limit with
  | none => false
  | some l => decide (l ≤ added)

/-- Post-sampling part of the `add_scrobbles` loop body: limit check, then
duplicate check, then the four writes.  Returns the new database,
statistics, duplicate set, and whether iteration continues (`false` models
the `break`). -/
def ingest_step (limit : Option Nat) (noDup : Bool) (s : Scrobble) (db : Database)
    (stats : IngestStats) (existing : List (String × String)) :
    Database × IngestStats × List (String × String) × Bool :=
  if limitHit limit stats.added then
    (db, { stats with limit_reached := true }, existing, false)
  else if noDup && existing.contains (scrobbleKey s) then
    (db, { stats with skipped := stats.skipped + 1 }, existing, true)
  else
    (add_scrobble_writes db s, { stats with added := stats.added + 1 },
     (if noDup then scrobbleKey s :: existing else existing), true)

/-- Main loop of `add_scrobbles`; `k` is the position in the sampling
stream. -/
def add_scrobbles_go {α : Type} [LinearOrder α] (sample : Option α) (rand : Nat → α)
    (limit : Option Nat) (noDup : Bool) :
    List Scrobble → Database → IngestStats → List (String × String) → Nat →
    Database × IngestStats
  | [], db, stats, _, _ => (db, stats)
  | s :: rest, db, stats, existing, k =>
    let stats := { stats with total_processed := stats.total_processed + 1 }
    match sample with
    | some p =>
      if p ≤ rand k then
        -- random.random() >= sample: the record is excluded, `continue`
        add_scrobbles_go (some p) rand limit noDup rest db stats existing (k + 1)
      else
        let stats := { stats with sampled := stats.sampled + 1 }
        let r := ingest_step limit noDup s db stats existing
        if r.2.2.2 then add_scrobbles_go (some p) rand limit noDup rest r.1 r.2.1 r.2.2.1 (k + 1)
        else (r.1, r.2.1)
    | none =>
      let r := ingest_step limit noDup s db stats existing
      if r.2.2.2 then add_scrobbles_go none rand limit noDup rest r.1 r.2.1 r.2.2.1 k
      else (r.1, r.2.1)

/-- Add scrobbles to the database with optional sampling, limiting and
duplicate skipping (`add_scrobbles`).  The duplicate set is primed from the
stored plays when `no_duplicates` is set (an absent `plays` table reads as
an empty one). -/
def add_scrobbles {α : Type} [LinearOrder α] (db : Database) (recs : List Scrobble)
    (sample : Option α) (rand : Nat → α) (limit : Option Nat) (noDup : Bool) :
    Database × IngestStats :=
  let existing := if noDup then db.plays.map (fun p => (p.timestamp, p.track_id)) else []
  add_scrobbles_go sample rand limit noDup recs db initStats existing 0

/-! ## Read-side queries (`domain_queries.py`)

SQL string comparison (`<=` on stored isoformat text) and `LIKE '%q%'`
(ASCII case-insensitive substring) are modelled bytewise/codepointwise. -/

/-- Lexicographic comparison of character lists by code point, as SQLite
compares the stored text values. -/
def lexLeChars : List Char → List Char → Bool
  | [], _ => true
  | _ :: _, [] => false
  | c :: cs, d :: ds =>
    if c.toNat < d.toNat then true
    else if d.toNat < c.toNat then false
    else lexLeChars cs ds

/-- SQL `x <= y` on two text values. -/
def strLeB (a b : String) : Bool := lexLeChars a.data b.data

/-- Check that `needle` is an exact front segment of `haystack`. -/
def listStarts : List Char → List Char → Bool
  | [], _ => true
  | _ :: _, [] => false
  | c :: n, d :: h => c == d && listStarts n h

/-- Substring containment on character lists. -/
def listContainsSub (needle : List Char) : List Char → Bool
  | [] => needle.isEmpty
  | c :: h => listStarts needle (c :: h) || listContainsSub needle h

/-- Model of SQL `column LIKE '%pat%'` (case-insensitive for ASCII). -/
def likeContains (pat s : String) : Bool :=
  listContainsSub (pyLower pat).data (pyLower s).data

/-- Smallest of a list of text values (SQL `MIN`, `NULL` on empty). -/
def minString? (l : List String) : Option String :=
  l.foldr (fun s acc => match acc with
    | none => some s
    | some t => some (if strLeB s t then s else t)) none

/-- Largest of a list of text values (SQL `MAX`, `NULL` on empty). -/
def maxString? (l : List String) : Option String :=
  l.foldr (fun s acc => match acc with
    | none => some s
    | some t => some (if strLeB t s then s else t)) none

/-- Stable insertion into a sorted list: the new element is placed after
any existing element `y` with `le y x`, so ties keep input order. -/
def stableInsert {γ : Type} (le : γ → γ → Bool) (x : γ) : List γ → List γ
  | [] => [x]
  | y :: ys => if le y x then y :: stableInsert le x ys else x :: y :: ys

/-- Stable sort by a total preorder `le`; a stable sort's output is
uniquely determined, so this models Python's stable `list.sort`. -/
def stableSort {γ : Type} (le : γ → γ → Bool) (l : List γ) : List γ :=
  l.foldl (fun acc x => stableInsert le x acc) []

/-- Inclusion of a play timestamp in the window built by the condition list
`plays.timestamp >= ?` (when `since` is given) and `plays.timestamp <= ?`
(when `until` is given). -/
def tsInWindow (since untl : Option String) (ts : String) : Bool :=
  (match since with | none => true | some s => strLeB s ts) &&
  (match untl with | none => true | some u => strLeB ts u)

/-- Result row of `get_artist_details`. -/
structure ArtistDetails where
  artist_id : String
  artist_name : String
  play_count : Nat
  track_count : Nat
  album_count : Nat
  first_played : Option String
  last_played : Option String
deriving DecidableEq, Repr

/-- Join rows of the statistics query of `get_artist_details`:
`FROM plays JOIN tracks ON plays.track_id = tracks.id
JOIN albums ON tracks.album_id = albums.id WHERE albums.artist_id = ?`. -/
def artistStatsJoin (db : Database) (aid : String) : List (Play × Track × Album) :=
  db.plays.flatMap fun p =>
    (db.tracks.filter fun t => t.id == p.track_id).flatMap fun t =>
      (db.albums.filter fun al => al.id == t.album_id && al.artist_id == aid).map fun al =>
        (p, t, al)

/-- Statistics row of `get_artist_details` for one artist. -/
def mkArtistDetails (db : Database) (a : Artist) : ArtistDetails :=
  let rows := artistStatsJoin db a.id
  { artist_id := a.id
    artist_name := a.name
    play_count := rows.length
    track_count := ((rows.map fun r => r.2.1.id).dedup).length
    album_count := ((rows.map fun r => r.2.2.id).dedup).length
    first_played := minString? (rows.map fun r => r.1.timestamp)
    last_played := maxString? (rows.map fun r => r.1.timestamp) }

/-- Point lookup `get_artist_details`: exact match by id when an id is
given, else partial match by name with `LIMIT 2`; more than one name match
raises `ValueError` (modelled as `Except.error`), no match returns `None`
(`Except.ok none`).  Python truthiness makes an empty id or name fall
through to the next branch. -/
def get_artist_details (db : Database) (artist_id : Option String)
    (artist_name : Option String) : Except String (Option ArtistDetails) :=
  if !(artist_id.getD "" == "") then
    match db.artists.find? (fun a => a.id == artist_id.getD "") with
    | none => .ok none
    | some a => .ok (some (mkArtistDetails db a))
  else if !(artist_name.getD "" == "") then
    let nm := artist_name.getD ""
    let found := (db.artists.filter fun a => likeContains nm a.name).take 2
    match found with
    | [] => .ok none
    | [a] => .ok (some (mkArtistDetails db a))
    | _ => .error ("Multiple artists match \x27" ++ nm ++ "\x27")
  else .error "Either artist_id or artist_name must be provided"

/-- Result row of `get_top_artists`. -/
structure TopArtist where
  rank : Nat
  artist_id : String
  artist_name : String
  play_count : Nat
  percentage : ℚ
  avg_plays_per_day : ℚ
deriving DecidableEq, Repr

/-- Window-filtered join rows reaching an artist, as grouped by the
`get_top_artists` aggregation query. -/
def artistWindowPlays (db : Database) (since untl : Option String) (a : Artist) :
    List Play :=
  (db.plays.filter fun p => tsInWindow since untl p.timestamp).flatMap fun p =>
    (db.tracks.filter fun t => t.id == p.track_id).flatMap fun t =>
      (db.albums.filter fun al => al.id == t.album_id && al.artist_id == a.id).map fun _ => p

/-- Top artists by play count (`get_top_artists`).  `days` is the day span
the source computes with `datetime` subtraction (external calendar
arithmetic), used only for `avg_plays_per_day`.  SQL leaves the order of
equal play counts unspecified; it is determinized here as artist table
order (the sort is stable). -/
def get_top_artists (db : Database) (since untl : Option String) (limit : Nat)
    (days : ℚ) : List TopArtist :=
  let total_plays := (db.plays.filter fun p => tsInWindow since untl p.timestamp).length
  let groups := (db.artists.map fun a => (a, (artistWindowPlays db since untl a).length)).filter
    fun g => !(g.2 == 0)
  let sorted := stableSort (fun x y => decide (y.2 ≤ x.2)) groups
  (sorted.take limit).enum.map fun ic =>
    { rank := ic.1 + 1
      artist_id := ic.2.1.id
      artist_name := ic.2.1.name
      play_count := ic.2.2
      percentage := if 0 < total_plays then (ic.2.2 : ℚ) / (total_plays : ℚ) * 100 else 0
      avg_plays_per_day := (ic.2.2 : ℚ) / days }

/-- Result row of `get_artists_by_search`. -/
structure SearchArtist where
  artist_id : String
  artist_name : String
  album_count : Nat
  track_count : Nat
  play_count : Nat
  last_played : Option String
  fuzzy_score : Int
deriving DecidableEq, Repr

/-- Keep the first occurrence of each element; determinizes Python's
`list(set(...))`, whose iteration order is unspecified. -/
def dedupKeepFirstAux (seen : List String) : List String → List String
  | [] => []
  | x :: xs =>
    if seen.contains x then dedupKeepFirstAux seen xs
    else x :: dedupKeepFirstAux (x :: seen) xs

/-- Deduplicate a list of ids keeping first occurrences. -/
def dedupKeepFirst (l : List String) : List String := dedupKeepFirstAux [] l

/-- Chained `LEFT JOIN` play rows of the detail query of
`get_artists_by_search` for one artist. -/
def searchArtistPlays (db : Database) (aid : String) : List Play :=
  (db.albums.filter fun al => al.artist_id == aid).flatMap fun al =>
    (db.tracks.filter fun t => t.album_id == al.id).flatMap fun t =>
      db.plays.filter fun p => p.track_id == t.id

/-- Detail row (`artist_id, artist_name, album_count, track_count,
play_count, last_played`) of the search detail query; the fuzzy score is
attached by the scoring pass afterwards. -/
def mkSearchArtist (db : Database) (a : Artist) : SearchArtist :=
  let albums := db.albums.filter fun al => al.artist_id == a.id
  let trackIds := albums.flatMap fun al =>
    (db.tracks.filter fun t => t.album_id == al.id).map fun t => t.id
  let plays := searchArtistPlays db a.id
  { artist_id := a.id
    artist_name := a.name
    album_count := ((albums.map fun al => al.id).dedup).length
    track_count := (trackIds.dedup).length
    play_count := plays.length
    last_played := maxString? (plays.map fun p => p.timestamp)
    fuzzy_score := 0 }

/-- Sort ordering of the final `results.sort(key=(fuzzy_score, play_count),
reverse=True)`: descending lexicographic on the pair, ties left in input
order by stability. -/
def searchRankGe (x y : SearchArtist) : Bool :=
  decide (y.fuzzy_score < x.fuzzy_score) ||
  (decide (x.fuzzy_score = y.fuzzy_score) && decide (y.play_count ≤ x.play_count))

/-- Fuzzy artist search (`get_artists_by_search`).  `ftsRows` are the
`(artist_id, artist_name)` rows the SQLite engine returns for
`tracks_fts MATCH "artist_name:<q>*" LIMIT limit*3`, and `score` is
`rapidfuzz.fuzz.partial_ratio` — both external collaborators passed in as
parameters.  The unspecified iteration order of `list(set(...))` and of the
unordered detail query is determinized as first-occurrence / candidate
order. -/
def get_artists_by_search (db : Database) (ftsRows : List (String × String))
    (score : String → String → Int) (q : String) (limit : Nat) : List SearchArtist :=
  let artist_ids := dedupKeepFirst (ftsRows.map fun r => r.1)
  let artist_ids :=
    if artist_ids.length < limit then
      let like_ids := (dedupKeepFirst
        ((db.artists.filter fun a => likeContains q a.name).map fun a => a.id)).take (limit * 2)
      (artist_ids ++ like_ids.filter fun i => !(artist_ids.contains i)).take (limit * 2)
    else artist_ids
  if artist_ids.isEmpty then []
  else
    let results := artist_ids.filterMap fun i =>
      (db.artists.find? fun a => a.id == i).map (mkSearchArtist db)
    let results := results.map fun r =>
      { r with fuzzy_score := score (pyLower q) (pyLower r.artist_name) }
    (stableSort searchRankGe results).take limit

/-! ## Paginated fetcher (`recent_tracks`)

The network is a collaborator: `pages n` is the list of track entries of
page `n` of the remote response, and `totalPages` is the total-page count
read from the first page's envelope.  The model returns the yielded entries
together with the number of page requests issued. -/

/-- Python truthiness test `limit and tracks_yielded >= limit`. -/
def limitCap (limit : Option Nat) (yielded : Nat) : Bool :=
  match limit with
  | none => false
  | some l => !(l == 0) && decide (l ≤ yielded)

/-- Yield the entries of one page, checking the cap after every yielded
item; returns the yielded entries, the updated count, and whether the cap
fired (the generator `return`). -/
def yieldPage {τ : Type} (limit : Option Nat) : List τ → Nat → List τ × Nat × Bool
  | [], yielded => ([], yielded, false)
  | x :: rest, yielded =>
    let yielded := yielded + 1
    if limitCap limit yielded then ([x], yielded, true)
    else
      let r := yieldPage limit rest yielded
      (x :: r.1, r.2.1, r.2.2)

/-- Page loop of `recent_tracks`: request a page, yield its entries, stop on
the cap or once `page + 1 > total_pages`.  `fuel` bounds the iterations;
the wrapper supplies enough for the natural exit. -/
def recent_tracks_loop {τ : Type} (pages : Nat → List τ) (totalPages : Nat)
    (limit : Option Nat) : Nat → Nat → Nat → List τ × Nat
  | 0, _, _ => ([], 0)
  | fuel + 1, page, yielded =>
    let r := yieldPage limit (pages page) yielded
    if r.2.2 then (r.1, 1)
    else if totalPages < page + 1 then (r.1, 1)
    else
      let rest := recent_tracks_loop pages totalPages limit fuel (page + 1) r.2.1
      (r.1 ++ rest.1, 1 + rest.2)

/-- Fetch recent tracks (`recent_tracks`): starts at page 1; the first page
is always requested (its envelope carries `totalPages`). -/
def recent_tracks {τ : Type} (pages : Nat → List τ) (totalPages : Nat)
    (limit : Option Nat) : List τ × Nat :=
  recent_tracks_loop pages totalPages limit (max totalPages 1) 1 0

/-! ## Staging definitions and concrete inputs for the claim theorems -/

/-- Candidate-id stage of `get_artists_by_search`: FTS ids, supplemented by
the `LIKE` scan only when fewer than `limit` FTS ids were found. -/
def searchCandidates (db : Database) (ftsRows : List (String × String))
    (q : String) (limit : Nat) : List String :=
  let artist_ids := dedupKeepFirst (ftsRows.map fun r => r.1)
  if artist_ids.length < limit then
    let like_ids := (dedupKeepFirst
      ((db.artists.filter fun a => likeContains q a.name).map fun a => a.id)).take (limit * 2)
    (artist_ids ++ like_ids.filter fun i => !(artist_ids.contains i)).take (limit * 2)
  else artist_ids

/-- Detail/scoring/ranking stage of `get_artists_by_search` over a fixed
candidate-id list. -/
def searchCore (db : Database) (score : String → String → Int) (q : String)
    (limit : Nat) (ids : List String) : List SearchArtist :=
  if ids.isEmpty then []
  else
    let results := ids.filterMap fun i =>
      (db.artists.find? fun a => a.id == i).map (mkSearchArtist db)
    let results := results.map fun r =>
      { r with fuzzy_score := score (pyLower q) (pyLower r.artist_name) }
    (stableSort searchRankGe results).take limit

/-- Join condition of the three-table join, in a canonical orientation. -/
def joinCond (t : Track) (al : Album) (a : Artist) : Bool :=
  al.id == t.album_id && a.id == al.artist_id

/-- Indicator-summed three-table join over arbitrary table multisets. -/
def tripleSum (T : Multiset Track) (L : Multiset Album) (A : Multiset Artist) :
    Multiset FtsRow :=
  T.bind fun t => L.bind fun al => A.bind fun a =>
    if joinCond t al a then {mkRow a al t} else 0

/-- Invariant maintained by every upsert write from the empty database:
the trigger-maintained index equals the rebuild join as a multiset, and
each table has unique primary keys. -/
structure Inv (db : Database) : Prop where
  fts : (↑db.tracks_fts : Multiset FtsRow) = ↑(rebuildRows db)
  na : (db.artists.map Artist.id).Nodup
  nb : (db.albums.map Album.id).Nodup
  nt : (db.tracks.map Track.id).Nodup

/-- Keys of the stored plays, as loaded into the duplicate set. -/
def playKeys (db : Database) : List (String × String) :=
  db.plays.map fun p => (p.timestamp, p.track_id)

/-- Records kept by duplicate skipping: a record survives iff its key is
neither among `seen` nor among the keys of earlier survivors. -/
def dedupNew (seen : List (String × String)) : List Scrobble → List Scrobble
  | [] => []
  | s :: rest =>
    if seen.contains (scrobbleKey s) then dedupNew seen rest
    else s :: dedupNew (scrobbleKey s :: seen) rest

/-- Records kept by sampling: the record at draw position `k` survives iff
`rand k < p` (the code excludes on `random.random() >= sample`). -/
def sampleKept {α : Type} [LinearOrder α] (p : α) (rand : Nat → α) :
    Nat → List Scrobble → List Scrobble
  | _, [] => []
  | k, s :: rest =>
    if p ≤ rand k then sampleKept p rand (k + 1) rest
    else s :: sampleKept p rand (k + 1) rest

/-- Demonstration write sequence for C1: one artist, one album, one track. -/
def demoOps : List WriteOp :=
  [.artist ⟨"a1", "Artist One"⟩, .album ⟨"b1", "First Album", "a1"⟩,
   .track ⟨"t1", "First Song", "b1"⟩]

/-- Record with an external artist id but no album/track ids, refuting the
claim that synthesis hashes the record's actual (possibly external) parent
ids. -/
def c2Input : List (String × String) :=
  [("artist", "A"), ("track", "T"), ("timestamp", "100"), ("artist_mbid", "ext")]

/-- Input for the C2 witness: all three ids synthesized. -/
def c2WitnessInput : List (String × String) :=
  [("artist", "A"), ("track", "T"), ("timestamp", "100")]

/-- Prototype scrobble record used in concrete runs. -/
def demoScrobble : Scrobble :=
  ⟨⟨"a1", "Artist One"⟩, ⟨"b1", "First Album", "a1"⟩, ⟨"t1", "First Song", "b1"⟩,
   ⟨"2024-01-01T00:00:00", "t1"⟩⟩

/-- One hundred input records for the C4 counterexample. -/
def c4Recs : List Scrobble := List.replicate 100 demoScrobble

/-- Three distinct records for the C3 witness. -/
def c3Recs : List Scrobble :=
  [demoScrobble,
   ⟨⟨"a1", "Artist One"⟩, ⟨"b1", "First Album", "a1"⟩, ⟨"t2", "Second Song", "b1"⟩,
    ⟨"2024-01-01T00:01:00", "t2"⟩⟩,
   ⟨⟨"a2", "Artist Two"⟩, ⟨"b2", "Other Album", "a2"⟩, ⟨"t3", "Third Song", "b2"⟩,
    ⟨"2024-01-01T00:02:00", "t3"⟩⟩]

/-- Database with two artists whose names both contain the query; used to
refute the no-raising claim. -/
def c7Db : Database :=
  ⟨[⟨"a1", "First Artist"⟩, ⟨"a2", "Second Artist"⟩], [], [], [], []⟩

/-- Database with a single matching artist, for the C7 witness. -/
def c7WitnessDb : Database := ⟨[⟨"a1", "Solo Artist"⟩], [], [], [], []⟩

/-- Database with a play exactly at the window's upper bound. -/
def c8Db : Database :=
  ⟨[⟨"a1", "Artist One"⟩], [⟨"b1", "First Album", "a1"⟩], [⟨"t1", "First Song", "b1"⟩],
   [⟨"2024-01-01T10:00:00", "t1"⟩, ⟨"2024-01-02T00:00:00", "t1"⟩], []⟩

/-- Concrete page source for the C9 witness: page `n` carries three items. -/
def c9Pages (n : Nat) : List Nat := [10 * n, 10 * n + 1, 10 * n + 2]

/-- Database for the C6 results: two artists, one whose name contains the
query as a substring but is absent from the FTS rows. -/
def c6Db : Database := ⟨[⟨"a1", "Axx"⟩, ⟨"a2", "The Hit"⟩], [], [], [], []⟩

/-- Similarity collaborator for the C6 results: 100 on substring
containment, 0 otherwise. -/
def c6Score (a b : String) : Int := if listContainsSub a.data b.data then 100 else 0

/-! ## Proof infrastructure: a multiset view of the index rows

The trigger bodies and the rebuild query are all sub-multisets of the same
three-table join; everything below expresses them as indicator-summed binds
over the table multisets, where they can be compared up to row order. -/

/-- Filter a multiset by a `Bool` predicate, the multiset view of
`List.filter`. -/
def bfilter {γ : Type} (p : γ → Bool) (s : Multiset γ) : Multiset γ :=
  Multiset.filter (fun x => p x = true) s

/-! Known-answer tests of the MD5 model. -/

example : md5Hex "" = "d41d8cd98f00b204e9800998ecf8427e" := by decide
example : md5Hex "abc" = "900150983cd24fb0d6963f7d28e17f72" := by decide
example : md5Hex "The quick brown fox jumps over the lazy dog" =
    "9e107d9d372bb6826bd81d3542a419d6" := by decide

lemma coe_bfilter {γ : Type} (p : γ → Bool) (l : List γ) :
    bfilter p ↑l = ↑(l.filter p) := by
  unfold bfilter
  rw [Multiset.filter_coe]
  have h : (fun b => decide (p b = true)) = p := by
    funext x; cases h : p x <;> simp [h]
  rw [h]

lemma bfilter_add {γ : Type} (p : γ → Bool) (s t : Multiset γ) :
    bfilter p (s + t) = bfilter p s + bfilter p t :=
  Multiset.filter_add _ s t

lemma bfilter_bind {γ δ : Type} (p : δ → Bool) (s : Multiset γ) (f : γ → Multiset δ) :
    bfilter p (s.bind f) = s.bind fun x => bfilter p (f x) := by
  refine Multiset.induction_on s ?_ ?_
  · simp [bfilter]
  · intro a s ih
    simp only [Multiset.cons_bind, bfilter_add, ih]

lemma bind_bfilter {γ δ : Type} (p : γ → Bool) (s : Multiset γ) (f : γ → Multiset δ) :
    (bfilter p s).bind f = s.bind fun x => if p x then f x else 0 := by
  refine Multiset.induction_on s ?_ ?_
  · simp [bfilter]
  · intro a s ih
    rw [show bfilter p (a ::ₘ s) = (if p a then ({a} : Multiset γ) else 0) + bfilter p s by
      unfold bfilter
      rw [Multiset.filter_cons]]
    rw [Multiset.add_bind, Multiset.cons_bind, ih]
    cases h : p a <;> simp [h]

lemma bfilter_ite_singleton {γ : Type} (p : γ → Bool) (b : Bool) (x : γ) :
    bfilter p (if b then ({x} : Multiset γ) else 0) = if b && p x then {x} else 0 := by
  cases b <;> cases h : p x <;> simp [bfilter, Multiset.filter_singleton, h]

lemma coe_flatMap {γ δ : Type} (l : List γ) (f : γ → List δ) :
    (↑(l.flatMap f) : Multiset δ) = (↑l : Multiset γ).bind fun x => ↑(f x) :=
  (Multiset.coe_bind l f).symm

lemma coe_filter_flatMap {γ δ : Type} (l : List γ) (p : γ → Bool) (f : γ → List δ) :
    (↑((l.filter p).flatMap f) : Multiset δ)
      = (↑l : Multiset γ).bind fun x => if p x then ↑(f x) else 0 := by
  rw [coe_flatMap, ← coe_bfilter, bind_bfilter]

lemma coe_filter_map {γ δ : Type} (l : List γ) (p : γ → Bool) (g : γ → δ) :
    (↑((l.filter p).map g) : Multiset δ)
      = (↑l : Multiset γ).bind fun x => if p x then {g x} else 0 := by
  rw [← Multiset.map_coe, ← Multiset.bind_singleton, ← coe_bfilter, bind_bfilter]

lemma str_beq_comm (a b : String) : (a == b) = (b == a) := by
  by_cases h : a = b
  · subst h; rfl
  · rw [beq_eq_false_iff_ne.mpr h, beq_eq_false_iff_ne.mpr (fun e => h e.symm)]

lemma tripleSum_zero_A (T : Multiset Track) (L : Multiset Album) :
    tripleSum T L 0 = 0 := by
  simp [tripleSum, Multiset.zero_bind, Multiset.bind_zero]

lemma trackTriggerRows_ms (db : Database) (t : Track) :
    (↑(trackTriggerRows db t) : Multiset FtsRow)
      = tripleSum {t} ↑db.albums ↑db.artists := by
  unfold trackTriggerRows tripleSum
  rw [Multiset.singleton_bind, coe_filter_flatMap]
  refine Multiset.bind_congr fun al _ => ?_
  cases h : al.id == t.album_id
  · simp [h, joinCond, Multiset.bind_zero]
  · rw [if_pos rfl, coe_filter_map]
    refine Multiset.bind_congr fun a _ => ?_
    simp [joinCond, h, mkRow]

lemma artistTriggerRows_ms (db : Database) (a : Artist) :
    (↑(artistTriggerRows db a) : Multiset FtsRow)
      = tripleSum ↑db.tracks ↑db.albums {a} := by
  have rhs : tripleSum ↑db.tracks ↑db.albums {a}
      = (↑db.albums : Multiset Album).bind fun al =>
          (↑db.tracks : Multiset Track).bind fun t =>
            if joinCond t al a then ({mkRow a al t} : Multiset FtsRow) else 0 :=
    calc tripleSum ↑db.tracks ↑db.albums {a}
        = (↑db.tracks : Multiset Track).bind fun t =>
            (↑db.albums : Multiset Album).bind fun al =>
              if joinCond t al a then ({mkRow a al t} : Multiset FtsRow) else 0 :=
          Multiset.bind_congr fun t _ => Multiset.bind_congr fun al _ =>
            Multiset.singleton_bind _ _
      _ = (↑db.albums : Multiset Album).bind fun al =>
            (↑db.tracks : Multiset Track).bind fun t =>
              if joinCond t al a then ({mkRow a al t} : Multiset FtsRow) else 0 :=
          Multiset.bind_bind _ _
  rw [rhs]
  unfold artistTriggerRows
  rw [coe_filter_flatMap]
  refine Multiset.bind_congr fun al _ => ?_
  cases h : al.artist_id == a.id
  · rw [if_neg (by simp [h])]
    have hz : ∀ t : Track, (if joinCond t al a then ({mkRow a al t} : Multiset FtsRow) else 0) = 0 := by
      intro t
      have hf : (a.id == al.artist_id) = false := by
        rw [str_beq_comm]; exact h
      simp [joinCond, hf]
    rw [Multiset.bind_congr fun t _ => hz t, Multiset.bind_zero]
  · rw [if_pos (by simp [h]), coe_filter_map]
    refine Multiset.bind_congr fun t _ => ?_
    have h2 : (a.id == al.artist_id) = true := by rw [str_beq_comm]; exact h
    have h3 : (t.album_id == al.id) = (al.id == t.album_id) := str_beq_comm _ _
    rw [h3]
    simp [joinCond, h2, mkRow]

lemma albumTriggerRows_ms (db : Database) (al : Album) :
    (↑(albumTriggerRows db al) : Multiset FtsRow)
      = tripleSum ↑db.tracks {al} ↑db.artists := by
  have rhs : tripleSum ↑db.tracks {al} ↑db.artists
      = (↑db.artists : Multiset Artist).bind fun a =>
          (↑db.tracks : Multiset Track).bind fun t =>
            if joinCond t al a then ({mkRow a al t} : Multiset FtsRow) else 0 :=
    calc tripleSum ↑db.tracks {al} ↑db.artists
        = (↑db.tracks : Multiset Track).bind fun t =>
            (↑db.artists : Multiset Artist).bind fun a =>
              if joinCond t al a then ({mkRow a al t} : Multiset FtsRow) else 0 :=
          Multiset.bind_congr fun t _ => Multiset.singleton_bind _ _
      _ = (↑db.artists : Multiset Artist).bind fun a =>
            (↑db.tracks : Multiset Track).bind fun t =>
              if joinCond t al a then ({mkRow a al t} : Multiset FtsRow) else 0 :=
          Multiset.bind_bind _ _
  rw [rhs]
  unfold albumTriggerRows
  rw [coe_filter_flatMap]
  refine Multiset.bind_congr fun a _ => ?_
  cases h : a.id == al.artist_id
  · rw [if_neg (by simp [h])]
    have hz : ∀ t : Track, (if joinCond t al a then ({mkRow a al t} : Multiset FtsRow) else 0) = 0 := by
      intro t; simp [joinCond, h]
    rw [Multiset.bind_congr fun t _ => hz t, Multiset.bind_zero]
  · rw [if_pos (by simp [h]), coe_filter_map]
    refine Multiset.bind_congr fun t _ => ?_
    have ha : a.id = al.artist_id := eq_of_beq h
    have h3 : (t.album_id == al.id) = (al.id == t.album_id) := str_beq_comm _ _
    rw [h3]
    cases h4 : al.id == t.album_id
    · simp [joinCond, h4]
    · simp [joinCond, h4, h, mkRow, ha]

lemma rebuildRows_ms (db : Database) :
    (↑(rebuildRows db) : Multiset FtsRow)
      = tripleSum ↑db.tracks ↑db.albums ↑db.artists := by
  unfold rebuildRows
  rw [coe_flatMap]
  have h : ∀ t ∈ (↑db.tracks : Multiset Track),
      (↑(trackTriggerRows db t) : Multiset FtsRow)
        = tripleSum {t} ↑db.albums ↑db.artists :=
    fun t _ => trackTriggerRows_ms db t
  rw [Multiset.bind_congr h]
  unfold tripleSum
  simp only [Multiset.singleton_bind]

lemma tripleSum_add_T (T T' : Multiset Track) (L : Multiset Album) (A : Multiset Artist) :
    tripleSum (T + T') L A = tripleSum T L A + tripleSum T' L A :=
  Multiset.add_bind _ _ _

lemma tripleSum_add_L (T : Multiset Track) (L L' : Multiset Album) (A : Multiset Artist) :
    tripleSum T (L + L') A = tripleSum T L A + tripleSum T L' A :=
  Eq.trans (Multiset.bind_congr fun _ _ => Multiset.add_bind _ _ _)
    (Multiset.bind_add _ _ _)

lemma tripleSum_add_A (T : Multiset Track) (L : Multiset Album) (A A' : Multiset Artist) :
    tripleSum T L (A + A') = tripleSum T L A + tripleSum T L A' :=
  Eq.trans
    (Multiset.bind_congr fun _ _ =>
      Eq.trans (Multiset.bind_congr fun _ _ => Multiset.add_bind _ _ _)
        (Multiset.bind_add _ _ _))
    (Multiset.bind_add _ _ _)

lemma bfilter_tripleSum_track (q : String → Bool) (T : Multiset Track)
    (L : Multiset Album) (A : Multiset Artist) :
    bfilter (fun r : FtsRow => q r.track_id) (tripleSum T L A)
      = tripleSum (bfilter (fun t => q t.id) T) L A := by
  unfold tripleSum
  rw [bfilter_bind, bind_bfilter]
  refine Multiset.bind_congr fun t _ => ?_
  rw [bfilter_bind]
  have inner : ∀ al, bfilter (fun r : FtsRow => q r.track_id)
      (A.bind fun a => if joinCond t al a then ({mkRow a al t} : Multiset FtsRow) else 0)
      = A.bind fun a => if joinCond t al a && q t.id then ({mkRow a al t} : Multiset FtsRow) else 0 := by
    intro al
    rw [bfilter_bind]
    refine Multiset.bind_congr fun a _ => ?_
    rw [bfilter_ite_singleton]
    simp [mkRow]
  rw [Multiset.bind_congr fun al _ => inner al]
  cases hq : q t.id
  · simp [hq, Multiset.bind_zero]
  · simp [hq]

lemma bfilter_tripleSum_album (q : String → Bool) (T : Multiset Track)
    (L : Multiset Album) (A : Multiset Artist) :
    bfilter (fun r : FtsRow => q r.album_id) (tripleSum T L A)
      = tripleSum T (bfilter (fun al => q al.id) L) A := by
  unfold tripleSum
  refine Eq.trans (bfilter_bind _ _ _) (Multiset.bind_congr fun t _ => ?_)
  rw [bfilter_bind, bind_bfilter]
  refine Multiset.bind_congr fun al _ => ?_
  rw [bfilter_bind]
  have inner : ∀ a, bfilter (fun r : FtsRow => q r.album_id)
      (if joinCond t al a then ({mkRow a al t} : Multiset FtsRow) else 0)
      = if joinCond t al a && q al.id then ({mkRow a al t} : Multiset FtsRow) else 0 := by
    intro a
    rw [bfilter_ite_singleton]
    simp [mkRow]
  rw [Multiset.bind_congr fun a _ => inner a]
  cases hq : q al.id
  · simp [hq, Multiset.bind_zero]
  · simp [hq]

lemma bfilter_tripleSum_artist (q : String → Bool) (T : Multiset Track)
    (L : Multiset Album) (A : Multiset Artist) :
    bfilter (fun r : FtsRow => q r.artist_id) (tripleSum T L A)
      = tripleSum T L (bfilter (fun a => q a.id) A) := by
  unfold tripleSum
  refine Eq.trans (bfilter_bind _ _ _) (Multiset.bind_congr fun t _ => ?_)
  refine Eq.trans (bfilter_bind _ _ _) (Multiset.bind_congr fun al _ => ?_)
  rw [bfilter_bind, bind_bfilter]
  refine Multiset.bind_congr fun a _ => ?_
  rw [bfilter_ite_singleton]
  cases hq : q a.id
  · simp [mkRow, hq]
  · simp [mkRow, hq]

lemma all_not_of_any_false {γ : Type} (l : List γ) (p : γ → Bool) (h : l.any p = false) :
    ∀ x ∈ l, p x = false := by
  intro x hx
  cases hp : p x
  · rfl
  · exact absurd (List.any_eq_true.mpr ⟨x, hx, hp⟩) (by simp [h])

lemma coe_map_update {γ : Type} (l : List γ) (key : γ → String) (k : String)
    (f : γ → γ) (new : γ)
    (hn : (l.map key).Nodup)
    (hf : ∀ x, key x = k → f x = new)
    (hmem : ∃ x ∈ l, key x = k) :
    (↑(l.map fun x => if key x == k then f x else x) : Multiset γ)
      = ↑(l.filter fun x => !(key x == k)) + {new} := by
  induction l with
  | nil => simp at hmem
  | cons y ys ih =>
    by_cases hy : key y = k
    · have hb : (key y == k) = true := beq_iff_eq.mpr hy
      have hnotin : ∀ x ∈ ys, key x ≠ k := by
        intro x hx hk
        have hmm : key y ∈ ys.map key := by
          rw [hy, ← hk]; exact List.mem_map_of_mem _ hx
        exact (List.nodup_cons.mp hn).1 hmm
      have hmap : (ys.map fun x => if key x == k then f x else x) = ys := by
        have hcg : (ys.map fun x => if key x == k then f x else x) = ys.map id :=
          List.map_congr_left fun x hx => by
            simp [beq_eq_false_iff_ne.mpr (hnotin x hx)]
        rw [hcg, List.map_id]
      have hfil : (ys.filter fun x => !(key x == k)) = ys :=
        List.filter_eq_self.mpr fun x hx => by
          simp [beq_eq_false_iff_ne.mpr (hnotin x hx)]
      have hnb : ¬((!(key y == k)) = true) := by simp [hb]
      rw [List.map_cons, hmap, if_pos hb, hf y hy, List.filter_cons, if_neg hnb, hfil,
        ← Multiset.cons_coe, add_comm, Multiset.singleton_add]
    · have hb : (key y == k) = false := beq_eq_false_iff_ne.mpr hy
      have hmem2 : ∃ x ∈ ys, key x = k := by
        obtain ⟨x, hx, hk⟩ := hmem
        rcases List.mem_cons.mp hx with hxy | hxs
        · exact absurd (hxy ▸ hk) hy
        · exact ⟨x, hxs, hk⟩
      have hn2 : (ys.map key).Nodup := (List.nodup_cons.mp hn).2
      have hnb : ¬((key y == k) = true) := by simp [hb]
      rw [List.map_cons, if_neg hnb, List.filter_cons, if_pos (by simp [hb]),
        ← Multiset.cons_coe, ← Multiset.cons_coe, Multiset.cons_add]
      exact congrArg (fun s => y ::ₘ s) (ih hn2 hmem2)

lemma map_update_keys {γ : Type} (l : List γ) (key : γ → String) (k : String) (f : γ → γ)
    (hf : ∀ x, key (f x) = key x) :
    (l.map fun x => if key x == k then f x else x).map key = l.map key := by
  rw [List.map_map]
  refine List.map_congr_left fun x _ => ?_
  cases h : key x == k
  · have hne := beq_eq_false_iff_ne.mp h
    simp [hne]
  · have heq := eq_of_beq h
    simp [heq, hf]

lemma inv_empty : Inv emptyDB := by
  constructor <;> simp [emptyDB, rebuildRows]

lemma bfilter_singleton {γ : Type} (p : γ → Bool) (x : γ) :
    bfilter p ({x} : Multiset γ) = if p x then ({x} : Multiset γ) else 0 := by
  simpa using bfilter_ite_singleton p true x

lemma rebuildRows_eq_of (db db' : Database) (hA : db.artists = db'.artists)
    (hL : db.albums = db'.albums) (hT : db.tracks = db'.tracks) :
    rebuildRows db = rebuildRows db' := by
  unfold rebuildRows trackTriggerRows
  rw [hA, hL, hT]

lemma artistTriggerRows_eq_of (db db' : Database) (a : Artist)
    (hL : db.albums = db'.albums) (hT : db.tracks = db'.tracks) :
    artistTriggerRows db a = artistTriggerRows db' a := by
  unfold artistTriggerRows
  rw [hL, hT]

lemma albumTriggerRows_eq_of (db db' : Database) (al : Album)
    (hA : db.artists = db'.artists) (hT : db.tracks = db'.tracks) :
    albumTriggerRows db al = albumTriggerRows db' al := by
  unfold albumTriggerRows
  rw [hA, hT]

lemma trackTriggerRows_eq_of (db db' : Database) (t : Track)
    (hA : db.artists = db'.artists) (hL : db.albums = db'.albums) :
    trackTriggerRows db t = trackTriggerRows db' t := by
  unfold trackTriggerRows
  rw [hA, hL]

lemma inv_save_artist (db : Database) (a : Artist) (h : Inv db) :
    Inv (save_artist db a) := by
  by_cases hany : (db.artists.any fun x => x.id == a.id) = true
  · -- the id exists: `INSERT OR IGNORE` is ignored, `UPDATE` fires `artists_au`
    unfold save_artist
    rw [if_pos hany]
    refine ⟨?_, ?_, ?_, ?_⟩ <;> simp only [artistsSyncTrigger]
    · -- index invariant
      have hmem : ∃ x ∈ db.artists, Artist.id x = a.id := by
        obtain ⟨x, hx, hb⟩ := List.any_eq_true.mp hany
        exact ⟨x, hx, eq_of_beq hb⟩
      have hf : ∀ x : Artist, Artist.id x = a.id → { x with name := a.name } = a := by
        intro x hx; cases x; cases a; simp_all
      have hupd := coe_map_update db.artists Artist.id a.id
        (fun x => { x with name := a.name }) a h.na hf hmem
      have htrig : artistTriggerRows
            { db with artists := db.artists.map fun x =>
                if x.id == a.id then { x with name := a.name } else x } a
          = artistTriggerRows db a :=
        artistTriggerRows_eq_of _ _ a rfl rfl
      have hreb : rebuildRows (artistsSyncTrigger
            { db with artists := db.artists.map fun x =>
                if x.id == a.id then { x with name := a.name } else x } a)
          = rebuildRows
            { db with artists := db.artists.map fun x =>
                if x.id == a.id then { x with name := a.name } else x } :=
        rebuildRows_eq_of _ _ rfl rfl rfl
      calc (↑((db.tracks_fts.filter fun r => !(r.artist_id == a.id))
              ++ artistTriggerRows
                { db with artists := db.artists.map fun x =>
                    if x.id == a.id then { x with name := a.name } else x } a) : Multiset FtsRow)
          = ↑(db.tracks_fts.filter fun r => !(r.artist_id == a.id))
              + ↑(artistTriggerRows db a) := by rw [htrig, Multiset.coe_add]
        _ = bfilter (fun r => !(r.artist_id == a.id)) ↑db.tracks_fts
              + tripleSum ↑db.tracks ↑db.albums {a} := by
            rw [coe_bfilter, artistTriggerRows_ms]
        _ = bfilter (fun r => !(r.artist_id == a.id))
              (tripleSum ↑db.tracks ↑db.albums ↑db.artists)
              + tripleSum ↑db.tracks ↑db.albums {a} := by
            rw [h.fts, rebuildRows_ms]
        _ = tripleSum ↑db.tracks ↑db.albums
              (bfilter (fun x => !(x.id == a.id)) ↑db.artists)
              + tripleSum ↑db.tracks ↑db.albums {a} := by
            rw [bfilter_tripleSum_artist (fun s => !(s == a.id))]
        _ = tripleSum ↑db.tracks ↑db.albums
              (bfilter (fun x => !(x.id == a.id)) ↑db.artists + {a}) := by
            rw [tripleSum_add_A]
        _ = ↑(rebuildRows (artistsSyncTrigger
              { db with artists := db.artists.map fun x =>
                  if x.id == a.id then { x with name := a.name } else x } a)) := by
            rw [hreb, rebuildRows_ms, coe_bfilter, ← hupd]
    · -- artist keys unchanged
      rw [map_update_keys db.artists Artist.id a.id
        (fun x => { x with name := a.name }) (fun _ => rfl)]
      exact h.na
    · exact h.nb
    · exact h.nt
  · -- fresh id: `INSERT` fires `artists_ai`, then `UPDATE` fires `artists_au`
    rw [Bool.not_eq_true] at hany
    have hfresh : ∀ x ∈ db.artists, (x.id == a.id) = false :=
      all_not_of_any_false _ _ hany
    have hAfilter : (db.artists.filter fun x => !(x.id == a.id)) = db.artists :=
      List.filter_eq_self.mpr fun x hx => by simp [hfresh x hx]
    have hAcoll : bfilter (fun x : Artist => !(x.id == a.id)) ↑db.artists
        = (↑db.artists : Multiset Artist) := by
      rw [coe_bfilter, hAfilter]
    unfold save_artist
    rw [if_neg (by simp [hany])]
    refine ⟨?_, ?_, ?_, ?_⟩ <;> simp only [artistsSyncTrigger]
    · have htrig1 : artistTriggerRows { db with artists := db.artists ++ [a] } a
          = artistTriggerRows db a := artistTriggerRows_eq_of _ _ a rfl rfl
      have hreb : rebuildRows (artistsSyncTrigger (artistsSyncTrigger
            { db with artists := db.artists ++ [a] } a) a)
          = rebuildRows { db with artists := db.artists ++ [a] } :=
        rebuildRows_eq_of _ _ rfl rfl rfl
      -- after `simp only [artistsSyncTrigger]` both trigger layers are explicit
      rw [htrig1]
      calc (↑(((db.tracks_fts.filter fun r => !(r.artist_id == a.id))
                ++ artistTriggerRows db a).filter (fun r => !(r.artist_id == a.id))
                ++ artistTriggerRows db a) : Multiset FtsRow)
          = bfilter (fun r => !(r.artist_id == a.id))
              (bfilter (fun r => !(r.artist_id == a.id)) ↑db.tracks_fts
                + ↑(artistTriggerRows db a))
              + ↑(artistTriggerRows db a) := by
            rw [coe_bfilter, Multiset.coe_add, coe_bfilter, Multiset.coe_add]
        _ = bfilter (fun r => !(r.artist_id == a.id))
              (tripleSum ↑db.tracks ↑db.albums ↑db.artists
                + tripleSum ↑db.tracks ↑db.albums {a})
              + tripleSum ↑db.tracks ↑db.albums {a} := by
            rw [h.fts, rebuildRows_ms, artistTriggerRows_ms,
              bfilter_tripleSum_artist (fun s => !(s == a.id)), hAcoll]
        _ = tripleSum ↑db.tracks ↑db.albums ↑db.artists
              + tripleSum ↑db.tracks ↑db.albums {a} := by
            rw [bfilter_add, bfilter_tripleSum_artist (fun s => !(s == a.id)),
              bfilter_tripleSum_artist (fun s => !(s == a.id)), hAcoll,
              bfilter_singleton]
            simp [tripleSum_zero_A]
        _ = tripleSum ↑db.tracks ↑db.albums (↑db.artists + {a}) := by
            rw [tripleSum_add_A]
        _ = ↑(rebuildRows (artistsSyncTrigger (artistsSyncTrigger
              { db with artists := db.artists ++ [a] } a) a)) := by
            rw [hreb, rebuildRows_ms]
            have : (↑(db.artists ++ [a]) : Multiset Artist) = ↑db.artists + {a} := by
              rw [← Multiset.coe_add]; rfl
            rw [this]
    · have hnotin : a.id ∉ db.artists.map Artist.id := by
        intro hmem
        obtain ⟨x, hx, hxid⟩ := List.mem_map.mp hmem
        have := hfresh x hx
        rw [beq_eq_false_iff_ne] at this
        exact this hxid
      rw [List.map_append]
      rw [List.nodup_append]
      refine ⟨h.na, by simp, ?_⟩
      intro x hx hmemx
      simp only [List.map_cons, List.map_nil, List.mem_singleton] at hmemx
      subst hmemx
      exact hnotin hx
    · exact h.nb
    · exact h.nt

lemma tripleSum_zero_L (T : Multiset Track) (A : Multiset Artist) :
    tripleSum T 0 A = 0 := by
  simp [tripleSum, Multiset.zero_bind, Multiset.bind_zero]

lemma tripleSum_zero_T (L : Multiset Album) (A : Multiset Artist) :
    tripleSum 0 L A = 0 := by
  simp [tripleSum, Multiset.zero_bind]

lemma inv_save_album (db : Database) (al : Album) (h : Inv db) :
    Inv (save_album db al) := by
  by_cases hany : (db.albums.any fun x => x.id == al.id) = true
  · -- the id exists: only `albums_au` fires
    unfold save_album
    rw [if_pos hany]
    refine ⟨?_, ?_, ?_, ?_⟩ <;> simp only [albumsSyncTrigger]
    · have hmem : ∃ x ∈ db.albums, Album.id x = al.id := by
        obtain ⟨x, hx, hb⟩ := List.any_eq_true.mp hany
        exact ⟨x, hx, eq_of_beq hb⟩
      have hf : ∀ x : Album, Album.id x = al.id →
          { x with title := al.title, artist_id := al.artist_id } = al := by
        intro x hx; cases x; cases al; simp_all
      have hupd := coe_map_update db.albums Album.id al.id
        (fun x => { x with title := al.title, artist_id := al.artist_id }) al h.nb hf hmem
      have htrig : albumTriggerRows
            { db with albums := db.albums.map fun x =>
                if x.id == al.id then { x with title := al.title, artist_id := al.artist_id } else x } al
          = albumTriggerRows db al :=
        albumTriggerRows_eq_of _ _ al rfl rfl
      have hreb : rebuildRows (albumsSyncTrigger
            { db with albums := db.albums.map fun x =>
                if x.id == al.id then { x with title := al.title, artist_id := al.artist_id } else x } al)
          = rebuildRows
            { db with albums := db.albums.map fun x =>
                if x.id == al.id then { x with title := al.title, artist_id := al.artist_id } else x } :=
        rebuildRows_eq_of _ _ rfl rfl rfl
      calc (↑((db.tracks_fts.filter fun r => !(r.album_id == al.id))
              ++ albumTriggerRows
                { db with albums := db.albums.map fun x =>
                    if x.id == al.id then { x with title := al.title, artist_id := al.artist_id } else x } al) : Multiset FtsRow)
          = ↑(db.tracks_fts.filter fun r => !(r.album_id == al.id))
              + ↑(albumTriggerRows db al) := by rw [htrig, Multiset.coe_add]
        _ = bfilter (fun r => !(r.album_id == al.id)) ↑db.tracks_fts
              + tripleSum ↑db.tracks {al} ↑db.artists := by
            rw [coe_bfilter, albumTriggerRows_ms]
        _ = bfilter (fun r => !(r.album_id == al.id))
              (tripleSum ↑db.tracks ↑db.albums ↑db.artists)
              + tripleSum ↑db.tracks {al} ↑db.artists := by
            rw [h.fts, rebuildRows_ms]
        _ = tripleSum ↑db.tracks
              (bfilter (fun x => !(x.id == al.id)) ↑db.albums) ↑db.artists
              + tripleSum ↑db.tracks {al} ↑db.artists := by
            rw [bfilter_tripleSum_album (fun s => !(s == al.id))]
        _ = tripleSum ↑db.tracks
              (bfilter (fun x => !(x.id == al.id)) ↑db.albums + {al}) ↑db.artists := by
            rw [tripleSum_add_L]
        _ = ↑(rebuildRows (albumsSyncTrigger
              { db with albums := db.albums.map fun x =>
                  if x.id == al.id then { x with title := al.title, artist_id := al.artist_id } else x } al)) := by
            rw [hreb, rebuildRows_ms, coe_bfilter, ← hupd]
    · exact h.na
    · rw [map_update_keys db.albums Album.id al.id
        (fun x => { x with title := al.title, artist_id := al.artist_id }) (fun _ => rfl)]
      exact h.nb
    · exact h.nt
  · -- fresh id: `albums_ai` then `albums_au`
    rw [Bool.not_eq_true] at hany
    have hfresh : ∀ x ∈ db.albums, (x.id == al.id) = false :=
      all_not_of_any_false _ _ hany
    have hLfilter : (db.albums.filter fun x => !(x.id == al.id)) = db.albums :=
      List.filter_eq_self.mpr fun x hx => by simp [hfresh x hx]
    have hLcoll : bfilter (fun x : Album => !(x.id == al.id)) ↑db.albums
        = (↑db.albums : Multiset Album) := by
      rw [coe_bfilter, hLfilter]
    unfold save_album
    rw [if_neg (by simp [hany])]
    refine ⟨?_, ?_, ?_, ?_⟩ <;> simp only [albumsSyncTrigger]
    · have htrig1 : albumTriggerRows { db with albums := db.albums ++ [al] } al
          = albumTriggerRows db al := albumTriggerRows_eq_of _ _ al rfl rfl
      have hreb : rebuildRows (albumsSyncTrigger (albumsSyncTrigger
            { db with albums := db.albums ++ [al] } al) al)
          = rebuildRows { db with albums := db.albums ++ [al] } :=
        rebuildRows_eq_of _ _ rfl rfl rfl
      rw [htrig1]
      calc (↑(((db.tracks_fts.filter fun r => !(r.album_id == al.id))
                ++ albumTriggerRows db al).filter (fun r => !(r.album_id == al.id))
                ++ albumTriggerRows db al) : Multiset FtsRow)
          = bfilter (fun r => !(r.album_id == al.id))
              (bfilter (fun r => !(r.album_id == al.id)) ↑db.tracks_fts
                + ↑(albumTriggerRows db al))
              + ↑(albumTriggerRows db al) := by
            rw [coe_bfilter, Multiset.coe_add, coe_bfilter, Multiset.coe_add]
        _ = bfilter (fun r => !(r.album_id == al.id))
              (tripleSum ↑db.tracks ↑db.albums ↑db.artists
                + tripleSum ↑db.tracks {al} ↑db.artists)
              + tripleSum ↑db.tracks {al} ↑db.artists := by
            rw [h.fts, rebuildRows_ms, albumTriggerRows_ms,
              bfilter_tripleSum_album (fun s => !(s == al.id)), hLcoll]
        _ = tripleSum ↑db.tracks ↑db.albums ↑db.artists
              + tripleSum ↑db.tracks {al} ↑db.artists := by
            rw [bfilter_add, bfilter_tripleSum_album (fun s => !(s == al.id)),
              bfilter_tripleSum_album (fun s => !(s == al.id)), hLcoll,
              bfilter_singleton]
            simp [tripleSum_zero_L]
        _ = tripleSum ↑db.tracks (↑db.albums + {al}) ↑db.artists := by
            rw [tripleSum_add_L]
        _ = ↑(rebuildRows (albumsSyncTrigger (albumsSyncTrigger
              { db with albums := db.albums ++ [al] } al) al)) := by
            rw [hreb, rebuildRows_ms]
            have hcoe : (↑(db.albums ++ [al]) : Multiset Album) = ↑db.albums + {al} := by
              rw [← Multiset.coe_add]; rfl
            rw [hcoe]
    · exact h.na
    · have hnotin : al.id ∉ db.albums.map Album.id := by
        intro hmem
        obtain ⟨x, hx, hxid⟩ := List.mem_map.mp hmem
        have hne := hfresh x hx
        rw [beq_eq_false_iff_ne] at hne
        exact hne hxid
      rw [List.map_append, List.nodup_append]
      refine ⟨h.nb, by simp, ?_⟩
      intro x hx hmemx
      simp only [List.map_cons, List.map_nil, List.mem_singleton] at hmemx
      subst hmemx
      exact hnotin hx
    · exact h.nt

lemma inv_save_track (db : Database) (t : Track) (h : Inv db) :
    Inv (save_track db t) := by
  by_cases hany : (db.tracks.any fun x => x.id == t.id) = true
  · -- the id exists: only `tracks_au` fires
    unfold save_track
    rw [if_pos hany]
    refine ⟨?_, ?_, ?_, ?_⟩ <;> simp only [tracksUpdateTrigger]
    · have hmem : ∃ x ∈ db.tracks, Track.id x = t.id := by
        obtain ⟨x, hx, hb⟩ := List.any_eq_true.mp hany
        exact ⟨x, hx, eq_of_beq hb⟩
      have hf : ∀ x : Track, Track.id x = t.id →
          { x with title := t.title, album_id := t.album_id } = t := by
        intro x hx; cases x; cases t; simp_all
      have hupd := coe_map_update db.tracks Track.id t.id
        (fun x => { x with title := t.title, album_id := t.album_id }) t h.nt hf hmem
      have htrig : trackTriggerRows
            { db with tracks := db.tracks.map fun x =>
                if x.id == t.id then { x with title := t.title, album_id := t.album_id } else x } t
          = trackTriggerRows db t :=
        trackTriggerRows_eq_of _ _ t rfl rfl
      have hreb : rebuildRows (tracksUpdateTrigger
            { db with tracks := db.tracks.map fun x =>
                if x.id == t.id then { x with title := t.title, album_id := t.album_id } else x } t)
          = rebuildRows
            { db with tracks := db.tracks.map fun x =>
                if x.id == t.id then { x with title := t.title, album_id := t.album_id } else x } :=
        rebuildRows_eq_of _ _ rfl rfl rfl
      calc (↑((db.tracks_fts.filter fun r => !(r.track_id == t.id))
              ++ trackTriggerRows
                { db with tracks := db.tracks.map fun x =>
                    if x.id == t.id then { x with title := t.title, album_id := t.album_id } else x } t) : Multiset FtsRow)
          = ↑(db.tracks_fts.filter fun r => !(r.track_id == t.id))
              + ↑(trackTriggerRows db t) := by rw [htrig, Multiset.coe_add]
        _ = bfilter (fun r => !(r.track_id == t.id)) ↑db.tracks_fts
              + tripleSum {t} ↑db.albums ↑db.artists := by
            rw [coe_bfilter, trackTriggerRows_ms]
        _ = bfilter (fun r => !(r.track_id == t.id))
              (tripleSum ↑db.tracks ↑db.albums ↑db.artists)
              + tripleSum {t} ↑db.albums ↑db.artists := by
            rw [h.fts, rebuildRows_ms]
        _ = tripleSum (bfilter (fun x => !(x.id == t.id)) ↑db.tracks)
              ↑db.albums ↑db.artists
              + tripleSum {t} ↑db.albums ↑db.artists := by
            rw [bfilter_tripleSum_track (fun s => !(s == t.id))]
        _ = tripleSum (bfilter (fun x => !(x.id == t.id)) ↑db.tracks + {t})
              ↑db.albums ↑db.artists := by
            rw [tripleSum_add_T]
        _ = ↑(rebuildRows (tracksUpdateTrigger
              { db with tracks := db.tracks.map fun x =>
                  if x.id == t.id then { x with title := t.title, album_id := t.album_id } else x } t)) := by
            rw [hreb, rebuildRows_ms, coe_bfilter, ← hupd]
    · exact h.na
    · exact h.nb
    · rw [map_update_keys db.tracks Track.id t.id
        (fun x => { x with title := t.title, album_id := t.album_id }) (fun _ => rfl)]
      exact h.nt
  · -- fresh id: `tracks_ai` (insert without delete) then `tracks_au`
    rw [Bool.not_eq_true] at hany
    have hfresh : ∀ x ∈ db.tracks, (x.id == t.id) = false :=
      all_not_of_any_false _ _ hany
    have hTfilter : (db.tracks.filter fun x => !(x.id == t.id)) = db.tracks :=
      List.filter_eq_self.mpr fun x hx => by simp [hfresh x hx]
    have hTcoll : bfilter (fun x : Track => !(x.id == t.id)) ↑db.tracks
        = (↑db.tracks : Multiset Track) := by
      rw [coe_bfilter, hTfilter]
    unfold save_track
    rw [if_neg (by simp [hany])]
    refine ⟨?_, ?_, ?_, ?_⟩ <;> simp only [tracksInsertTrigger, tracksUpdateTrigger]
    · have htrig1 : trackTriggerRows { db with tracks := db.tracks ++ [t] } t
          = trackTriggerRows db t := trackTriggerRows_eq_of _ _ t rfl rfl
      have hreb : rebuildRows (tracksUpdateTrigger (tracksInsertTrigger
            { db with tracks := db.tracks ++ [t] } t) t)
          = rebuildRows { db with tracks := db.tracks ++ [t] } :=
        rebuildRows_eq_of _ _ rfl rfl rfl
      rw [htrig1]
      calc (↑((db.tracks_fts ++ trackTriggerRows db t).filter
                (fun r => !(r.track_id == t.id))
                ++ trackTriggerRows db t) : Multiset FtsRow)
          = bfilter (fun r => !(r.track_id == t.id))
              (↑db.tracks_fts + ↑(trackTriggerRows db t))
              + ↑(trackTriggerRows db t) := by
            rw [Multiset.coe_add, coe_bfilter, Multiset.coe_add]
        _ = bfilter (fun r => !(r.track_id == t.id))
              (tripleSum ↑db.tracks ↑db.albums ↑db.artists
                + tripleSum {t} ↑db.albums ↑db.artists)
              + tripleSum {t} ↑db.albums ↑db.artists := by
            rw [h.fts, rebuildRows_ms, trackTriggerRows_ms]
        _ = tripleSum ↑db.tracks ↑db.albums ↑db.artists
              + tripleSum {t} ↑db.albums ↑db.artists := by
            rw [bfilter_add, bfilter_tripleSum_track (fun s => !(s == t.id)),
              bfilter_tripleSum_track (fun s => !(s == t.id)), hTcoll,
              bfilter_singleton]
            simp [tripleSum_zero_T]
        _ = tripleSum (↑db.tracks + {t}) ↑db.albums ↑db.artists := by
            rw [tripleSum_add_T]
        _ = ↑(rebuildRows (tracksUpdateTrigger (tracksInsertTrigger
              { db with tracks := db.tracks ++ [t] } t) t)) := by
            rw [hreb, rebuildRows_ms]
            have hcoe : (↑(db.tracks ++ [t]) : Multiset Track) = ↑db.tracks + {t} := by
              rw [← Multiset.coe_add]; rfl
            rw [hcoe]
    · exact h.na
    · exact h.nb
    · have hnotin : t.id ∉ db.tracks.map Track.id := by
        intro hmem
        obtain ⟨x, hx, hxid⟩ := List.mem_map.mp hmem
        have hne := hfresh x hx
        rw [beq_eq_false_iff_ne] at hne
        exact hne hxid
      rw [List.map_append, List.nodup_append]
      refine ⟨h.nt, by simp, ?_⟩
      intro x hx hmemx
      simp only [List.map_cons, List.map_nil, List.mem_singleton] at hmemx
      subst hmemx
      exact hnotin hx

lemma inv_save_play (db : Database) (p : Play) (h : Inv db) :
    Inv (save_play db p) := by
  unfold save_play
  by_cases hc : (db.plays.any fun q => q.timestamp == p.timestamp && q.track_id == p.track_id) = true
  · rw [if_pos hc]; exact h
  · rw [if_neg hc]
    refine ⟨?_, h.na, h.nb, h.nt⟩
    rw [show rebuildRows { db with plays := db.plays ++ [p] } = rebuildRows db from
      rebuildRows_eq_of _ _ rfl rfl rfl]
    exact h.fts

lemma inv_applyWrite (db : Database) (op : WriteOp) (h : Inv db) :
    Inv (applyWrite db op) := by
  cases op with
  | artist a => exact inv_save_artist db a h
  | album al => exact inv_save_album db al h
  | track t => exact inv_save_track db t h

lemma inv_applyWrites (db : Database) (ops : List WriteOp) (h : Inv db) :
    Inv (applyWrites db ops) := by
  induction ops generalizing db with
  | nil => exact h
  | cons op ops ih => exact ih _ (inv_applyWrite db op h)

lemma filter_key_singleton {γ : Type} (l : List γ) (key : γ → String) (x : γ)
    (hn : (l.map key).Nodup) (hx : x ∈ l) :
    l.filter (fun y => key y == key x) = [x] := by
  induction l with
  | nil => cases hx
  | cons y ys ih =>
    rcases List.mem_cons.mp hx with rfl | hxs
    · have hnotin : ∀ z ∈ ys, (key z == key x) = false := by
        intro z hz
        refine beq_eq_false_iff_ne.mpr fun he => ?_
        exact (List.nodup_cons.mp hn).1 (he ▸ List.mem_map_of_mem key hz)
      rw [List.filter_cons, if_pos (by simp)]
      rw [List.filter_eq_nil_iff.mpr fun z hz => by simp [hnotin z hz]]
    · have hne : (key y == key x) = false := by
        refine beq_eq_false_iff_ne.mpr fun he => ?_
        refine (List.nodup_cons.mp hn).1 ?_
        rw [he]
        exact List.mem_map_of_mem key hxs
      rw [List.filter_cons, if_neg (by simp [hne])]
      exact ih (List.nodup_cons.mp hn).2 hxs

/-- C1: for every sequence of artist/album/track writes performed through
the entity upsert operations, the trigger-maintained search index
(`setup_fts5`) and a full rebuild (`rebuild_fts5`) produce identical row
sets; and whenever the resulting tables are referentially intact (which the
ingestion write order guarantees at every synchronization point), the index
contains exactly one entry per existing track, whose fields equal the
current artist/album/track values. -/
theorem c1_index_consistency (ops : List WriteOp) :
    ((applyWrites emptyDB ops).tracks_fts).Perm
        ((rebuild_fts5 (applyWrites emptyDB ops)).tracks_fts)
    ∧ (RefIntegrity (applyWrites emptyDB ops) →
        ∀ t ∈ (applyWrites emptyDB ops).tracks,
          ∃ al ∈ (applyWrites emptyDB ops).albums,
            ∃ a ∈ (applyWrites emptyDB ops).artists,
              al.id = t.album_id ∧ a.id = al.artist_id ∧
              (applyWrites emptyDB ops).tracks_fts.filter
                  (fun r => r.track_id == t.id) = [mkRow a al t]) := by
  have hinv := inv_applyWrites emptyDB ops inv_empty
  constructor
  · exact Multiset.coe_eq_coe.mp hinv.fts
  · intro hri t ht
    obtain ⟨al, hal, halid, a, ha, haid⟩ := hri t ht
    refine ⟨al, hal, a, ha, halid, haid, ?_⟩
    have h2 : trackTriggerRows (applyWrites emptyDB ops) t = [mkRow a al t] := by
      unfold trackTriggerRows
      rw [show ((applyWrites emptyDB ops).albums.filter fun x => x.id == t.album_id) = [al] by
        rw [← halid]
        exact filter_key_singleton _ Album.id al hinv.nb hal]
      rw [List.flatMap_singleton]
      rw [show ((applyWrites emptyDB ops).artists.filter fun x => x.id == al.artist_id) = [a] by
        rw [← haid]
        exact filter_key_singleton _ Artist.id a hinv.na ha]
      rfl
    have h1 : (↑((applyWrites emptyDB ops).tracks_fts.filter fun r => r.track_id == t.id) :
        Multiset FtsRow) = ↑(trackTriggerRows (applyWrites emptyDB ops) t) := by
      rw [← coe_bfilter, hinv.fts, rebuildRows_ms,
        bfilter_tripleSum_track (fun s => s == t.id), coe_bfilter,
        show ((applyWrites emptyDB ops).tracks.filter fun y => y.id == t.id) = [t] from
          filter_key_singleton _ Track.id t hinv.nt ht,
        trackTriggerRows_ms]
      rfl
    rw [h2] at h1
    exact List.perm_singleton.mp (Multiset.coe_eq_coe.mp h1)

/-- Witness for C1 at a concrete write sequence. -/
theorem c1_index_consistency_witness :
    RefIntegrity (applyWrites emptyDB demoOps) ∧
    (applyWrites emptyDB demoOps).tracks_fts.filter
        (fun r => r.track_id == "t1")
      = [mkRow ⟨"a1", "Artist One"⟩ ⟨"b1", "First Album", "a1"⟩
          ⟨"t1", "First Song", "b1"⟩] := by
  have h := (c1_index_consistency demoOps).2 (by decide)
    ⟨"t1", "First Song", "b1"⟩ (by decide)
  obtain ⟨al, hal, a, ha, _, _, hfil⟩ := h
  have hal' : al = ⟨"b1", "First Album", "a1"⟩ := by
    have he : (applyWrites emptyDB demoOps).albums = [⟨"b1", "First Album", "a1"⟩] := by decide
    rw [he] at hal
    simpa using hal
  have ha' : a = ⟨"a1", "Artist One"⟩ := by
    have he : (applyWrites emptyDB demoOps).artists = [⟨"a1", "Artist One"⟩] := by decide
    rw [he] at ha
    simpa using ha
  exact ⟨by decide, by rw [← hal', ← ha']; exact hfil⟩

/-- C2 counterexample: on a record carrying the external artist id `"ext"`
the parser keeps that id verbatim, yet the synthesized album id is not
`H("ext" ‖ album_title)` — the hash input is the name-derived synthetic
artist id, not the record's actual parent id. -/
theorem c2_counterexample :
    ((parse_scrobble_dict c2Input).map fun r => r.artist.id) = some "ext" ∧
    ((parse_scrobble_dict c2Input).map fun r => r.album.id)
      ≠ some ("md5:" ++ md5HexBytes (utf8Encode "ext" ++ utf8Encode "(unknown album)")) := by
  constructor
  · decide
  · decide

/-- C2 (amended): for every record accepted by `parse_scrobble_dict`, each
entity id is the verbatim external id when one is supplied; every missing
id is taken from the hierarchical synthesized chain
`artist* = H(name)`, `album* = H(artist* ‖ album_title)`,
`track* = H(album* ‖ track_title)`, computed purely from the record's
name/titles — even when an external parent id is supplied, the hash inputs
are the synthesized chain, not the external id; and equal inputs always
parse to equal results. -/
theorem c2_identity_assignment (data : List (String × String)) (r : ParsedScrobble)
    (h : parse_scrobble_dict data = some r) :
    (r.artist.id = if assocGetD (normalizeRecord data) "artist_mbid" "" = ""
        then (synthesize_mbids r.artist.name r.album.title r.track.title).1
        else assocGetD (normalizeRecord data) "artist_mbid" "") ∧
    (r.album.id = if assocGetD (normalizeRecord data) "album_mbid" "" = ""
        then (synthesize_mbids r.artist.name r.album.title r.track.title).2.1
        else assocGetD (normalizeRecord data) "album_mbid" "") ∧
    (r.track.id = if assocGetD (normalizeRecord data) "track_mbid" "" = ""
        then (synthesize_mbids r.artist.name r.album.title r.track.title).2.2
        else assocGetD (normalizeRecord data) "track_mbid" "") ∧
    (∀ data2 : List (String × String), data2 = data →
        parse_scrobble_dict data2 = parse_scrobble_dict data) := by
  simp only [parse_scrobble_dict] at h
  by_cases hreq : (["timestamp", "artist", "track"].all
      fun f => !(assocGetD (normalizeRecord data) f "" == "")) = true
  · rw [if_pos hreq] at h
    cases hts : parse_timestamp (assocGetD (normalizeRecord data) "timestamp" "") with
    | none =>
      rw [hts] at h
      simp at h
    | some ts =>
      rw [hts] at h
      simp only [Option.map_some'] at h
      have hr := (Option.some.inj h).symm
      subst hr
      refine ⟨?_, ?_, ?_, fun data2 he => by rw [he]⟩ <;>
        (by_cases ha : assocGetD (normalizeRecord data) "artist_mbid" "" = "" <;>
         by_cases hb : assocGetD (normalizeRecord data) "album_mbid" "" = "" <;>
         by_cases hc : assocGetD (normalizeRecord data) "track_mbid" "" = "" <;>
         simp [ha, hb, hc])
  · rw [if_neg hreq] at h
    simp at h

/-- Witness for C2 at a concrete record with no external ids. -/
theorem c2_identity_assignment_witness :
    ∃ r, parse_scrobble_dict c2WitnessInput = some r ∧
      r.artist.id = (synthesize_mbids r.artist.name r.album.title r.track.title).1 ∧
      r.album.id = (synthesize_mbids r.artist.name r.album.title r.track.title).2.1 := by
  cases hp : parse_scrobble_dict c2WitnessInput with
  | none => exact absurd hp (by decide)
  | some r =>
    have h := c2_identity_assignment c2WitnessInput r hp
    have ha : assocGetD (normalizeRecord c2WitnessInput) "artist_mbid" "" = "" := by decide
    have hb : assocGetD (normalizeRecord c2WitnessInput) "album_mbid" "" = "" := by decide
    refine ⟨r, rfl, ?_, ?_⟩
    · rw [h.1, if_pos ha]
    · rw [h.2.1, if_pos hb]

/-! ## Behaviour of `add_scrobbles` -/

lemma add_go_none_char {α : Type} [LinearOrder α] (rand : Nat → α) (L : Nat) :
    ∀ (recs : List Scrobble) (db : Database) (st : IngestStats)
      (ex : List (String × String)) (k : Nat),
    st.limit_reached = false →
    add_scrobbles_go (α := α) none rand (some L) false recs db st ex k =
      (List.foldl add_scrobble_writes db (recs.take (L - st.added)),
       { total_processed := st.total_processed + min (L - st.added + 1) recs.length,
         sampled := st.sampled,
         added := st.added + min (L - st.added) recs.length,
         skipped := st.skipped,
         limit_reached := decide (L - st.added < recs.length) }) := by
  intro recs
  induction recs with
  | nil =>
    intro db st ex k hlr
    obtain ⟨tp, sm, ad, sk, lr⟩ := st
    simp only at hlr
    subst hlr
    simp [add_scrobbles_go]
  | cons s rest ih =>
    intro db st ex k hlr
    by_cases hL : L ≤ st.added
    · have hc : L - st.added = 0 := Nat.sub_eq_zero_of_le hL
      simp only [add_scrobbles_go, ingest_step, limitHit, decide_eq_true hL, if_pos rfl]
      obtain ⟨tp, sm, ad, sk, lr⟩ := st
      simp only at hlr hc ⊢
      subst hlr
      simp [hc]
    · have hc : ¬ (decide (L ≤ st.added) = true) := by simp [hL]
      have hstep : ingest_step (some L) false s db
            { st with total_processed := st.total_processed + 1 } ex
          = (add_scrobble_writes db s,
             { st with total_processed := st.total_processed + 1,
                       added := st.added + 1 }, ex, true) := by
        simp [ingest_step, limitHit, hL]
      simp only [add_scrobbles_go, hstep]
      rw [if_pos trivial]
      rw [ih (add_scrobble_writes db s)
        { st with total_processed := st.total_processed + 1, added := st.added + 1 }
        ex k hlr]
      have hcap : L - st.added = (L - (st.added + 1)) + 1 := by omega
      refine Prod.ext ?_ ?_
      · dsimp only
        rw [hcap, List.take_succ_cons, List.foldl_cons]
      · dsimp only
        simp only [IngestStats.mk.injEq, List.length_cons]
        refine ⟨?_, ?_, ?_, ?_, ?_⟩ <;>
          first
          | trivial
          | omega
          | (simp only [decide_eq_decide]; omega)

lemma dedupNew_length_le (seen : List (String × String)) (recs : List Scrobble) :
    (dedupNew seen recs).length ≤ recs.length := by
  induction recs generalizing seen with
  | nil => simp [dedupNew]
  | cons s rest ih =>
    simp only [dedupNew]
    by_cases h : seen.contains (scrobbleKey s) = true
    · rw [if_pos h]
      exact Nat.le_succ_of_le (ih seen)
    · rw [if_neg h]
      simpa using ih (scrobbleKey s :: seen)

lemma add_go_dup_char {α : Type} [LinearOrder α] (rand : Nat → α) :
    ∀ (recs : List Scrobble) (db : Database) (st : IngestStats)
      (ex : List (String × String)) (k : Nat),
    add_scrobbles_go (α := α) none rand none true recs db st ex k =
      (List.foldl add_scrobble_writes db (dedupNew ex recs),
       { total_processed := st.total_processed + recs.length,
         sampled := st.sampled,
         added := st.added + (dedupNew ex recs).length,
         skipped := st.skipped + (recs.length - (dedupNew ex recs).length),
         limit_reached := st.limit_reached }) := by
  intro recs
  induction recs with
  | nil =>
    intro db st ex k
    obtain ⟨tp, sm, ad, sk, lr⟩ := st
    simp [add_scrobbles_go, dedupNew]
  | cons s rest ih =>
    intro db st ex k
    by_cases hdup : ex.contains (scrobbleKey s) = true
    · have hstep : ingest_step none true s db
            { st with total_processed := st.total_processed + 1 } ex
          = (db, { st with total_processed := st.total_processed + 1, skipped := st.skipped + 1 }, ex, true) := by
        have hmem := List.elem_iff.mp hdup
        simp [ingest_step, limitHit, hmem]
      simp only [add_scrobbles_go, hstep]
      rw [if_pos trivial]
      rw [ih db { st with total_processed := st.total_processed + 1, skipped := st.skipped + 1 } ex k]
      have hle := dedupNew_length_le ex rest
      simp only [dedupNew, if_pos hdup]
      refine Prod.ext rfl ?_
      dsimp only
      simp only [IngestStats.mk.injEq, List.length_cons]
      refine ⟨?_, ?_, ?_, ?_, ?_⟩ <;> first | trivial | omega
    · have hdup' : ex.contains (scrobbleKey s) = false := by
        rwa [Bool.not_eq_true] at hdup
      have hstep : ingest_step none true s db
            { st with total_processed := st.total_processed + 1 } ex
          = (add_scrobble_writes db s,
             { st with total_processed := st.total_processed + 1,
                       added := st.added + 1 },
             scrobbleKey s :: ex, true) := by
        unfold ingest_step limitHit
        rw [Bool.true_and, hdup']
        simp
      simp only [add_scrobbles_go, hstep]
      rw [if_pos trivial]
      rw [ih (add_scrobble_writes db s)
        { st with total_processed := st.total_processed + 1, added := st.added + 1 }
        (scrobbleKey s :: ex) k]
      have hle := dedupNew_length_le (scrobbleKey s :: ex) rest
      simp only [dedupNew, if_neg (by simp only [hdup']; simp :
        ¬ (ex.contains (scrobbleKey s) = true))]
      refine Prod.ext ?_ ?_
      · dsimp only
        rw [List.foldl_cons]
      · dsimp only
        simp only [IngestStats.mk.injEq, List.length_cons]
        refine ⟨?_, ?_, ?_, ?_, ?_⟩ <;> first | trivial | omega

/-- Characterization of a duplicate-skipping run without sampling or limit:
the database effect is exactly the writes of the records surviving
deduplication, in order; every duplicate is counted skipped and issues no
write. -/
lemma add_scrobbles_dup_char (db : Database) (recs : List Scrobble)
    {α : Type} [LinearOrder α] (rand : Nat → α) :
    add_scrobbles db recs (none : Option α) rand none true
      = (List.foldl add_scrobble_writes db (dedupNew (playKeys db) recs),
         { total_processed := recs.length, sampled := 0,
           added := (dedupNew (playKeys db) recs).length,
           skipped := recs.length - (dedupNew (playKeys db) recs).length,
           limit_reached := false }) := by
  show add_scrobbles_go none rand none true recs db initStats (playKeys db) 0 = _
  rw [add_go_dup_char]
  simp [initStats]

lemma dedupNew_eq_self : ∀ (recs : List Scrobble),
    (recs.map scrobbleKey).Nodup →
    ∀ seen : List (String × String),
    (∀ s ∈ recs, seen.contains (scrobbleKey s) = false) →
    dedupNew seen recs = recs := by
  intro recs
  induction recs with
  | nil => intro _ seen _; rfl
  | cons s rest ih =>
    intro hnd seen hfresh
    rw [List.map_cons] at hnd
    have hnc := List.nodup_cons.mp hnd
    have hs : seen.contains (scrobbleKey s) = false := hfresh s (by simp)
    simp only [dedupNew, if_neg (by simp only [hs]; simp :
      ¬ (seen.contains (scrobbleKey s) = true))]
    have hrest : ∀ x ∈ rest, (scrobbleKey s :: seen).contains (scrobbleKey x) = false := by
      intro x hx
      rw [List.contains_cons]
      have h1 : (scrobbleKey x == scrobbleKey s) = false := by
        refine beq_eq_false_iff_ne.mpr fun he => ?_
        exact hnc.1 (he ▸ List.mem_map_of_mem _ hx)
      rw [h1, hfresh x (by simp [hx])]
      rfl
    rw [ih hnc.2 _ hrest]

lemma dedupNew_nil_of_all_dup (recs : List Scrobble)
    (seen : List (String × String))
    (hdup : ∀ s ∈ recs, seen.contains (scrobbleKey s) = true) :
    dedupNew seen recs = [] := by
  induction recs with
  | nil => rfl
  | cons s rest ih =>
    simp only [dedupNew, if_pos (hdup s (by simp))]
    exact ih fun x hx => hdup x (by simp [hx])

lemma plays_save_artist (db : Database) (a : Artist) :
    (save_artist db a).plays = db.plays := by
  unfold save_artist
  by_cases h : (db.artists.any fun x => x.id == a.id) = true
  · rw [if_pos h]; rfl
  · rw [if_neg h]; rfl

lemma plays_save_album (db : Database) (al : Album) :
    (save_album db al).plays = db.plays := by
  unfold save_album
  by_cases h : (db.albums.any fun x => x.id == al.id) = true
  · rw [if_pos h]; rfl
  · rw [if_neg h]; rfl

lemma plays_save_track (db : Database) (t : Track) :
    (save_track db t).plays = db.plays := by
  unfold save_track
  by_cases h : (db.tracks.any fun x => x.id == t.id) = true
  · rw [if_pos h]; rfl
  · rw [if_neg h]; rfl

lemma play_any_eq (plays : List Play) (ts tid : String) :
    (plays.any fun q => q.timestamp == ts && q.track_id == tid)
      = (plays.map fun p => (p.timestamp, p.track_id)).contains (ts, tid) := by
  induction plays with
  | nil => rfl
  | cons q rest ih =>
    simp only [List.any_cons, List.map_cons, List.contains_cons]
    rw [ih]
    congr 1
    show (q.timestamp == ts && q.track_id == tid)
      = (ts == q.timestamp && tid == q.track_id)
    rw [str_beq_comm q.timestamp ts, str_beq_comm q.track_id tid]

lemma writes_playKeys (db : Database) (s : Scrobble)
    (hWF : s.play.track_id = s.track.id)
    (hfresh : (playKeys db).contains (scrobbleKey s) = false) :
    playKeys (add_scrobble_writes db s) = playKeys db ++ [scrobbleKey s] := by
  unfold add_scrobble_writes
  unfold save_play
  rw [show ∀ dbx : Database, dbx.plays.any
        (fun q => q.timestamp == s.play.timestamp && q.track_id == s.play.track_id)
      = (playKeys dbx).contains (s.play.timestamp, s.play.track_id)
    from fun dbx => play_any_eq dbx.plays _ _]
  have hkeys : playKeys (save_track (save_album (save_artist db s.artist) s.album) s.track)
      = playKeys db := by
    unfold playKeys
    rw [plays_save_track, plays_save_album, plays_save_artist]
  rw [hkeys]
  have hkey : (s.play.timestamp, s.play.track_id) = scrobbleKey s := by
    unfold scrobbleKey
    rw [hWF]
  rw [hkey, hfresh]
  rw [if_neg (by simp)]
  unfold playKeys
  rw [List.map_append, plays_save_track, plays_save_album, plays_save_artist]
  show _ = (db.plays.map fun p => (p.timestamp, p.track_id)) ++ [scrobbleKey s]
  rw [← hkey]
  rfl

lemma foldl_writes_playKeys :
    ∀ (recs : List Scrobble) (db : Database),
    (∀ s ∈ recs, s.play.track_id = s.track.id) →
    (recs.map scrobbleKey).Nodup →
    (∀ s ∈ recs, (playKeys db).contains (scrobbleKey s) = false) →
    playKeys (List.foldl add_scrobble_writes db recs)
      = playKeys db ++ recs.map scrobbleKey := by
  intro recs
  induction recs with
  | nil => intro db _ _ _; simp
  | cons s rest ih =>
    intro db hwf hnd hfresh
    rw [List.foldl_cons,
      ih (add_scrobble_writes db s) (fun x hx => hwf x (by simp [hx]))
        ((List.nodup_cons.mp hnd).2) ?fresh]
    · rw [writes_playKeys db s (hwf s (by simp)) (hfresh s (by simp))]
      simp
    case fresh =>
      intro x hx
      rw [writes_playKeys db s (hwf s (by simp)) (hfresh s (by simp))]
      have h1 : ((playKeys db).contains (scrobbleKey x)) = false := hfresh x (by simp [hx])
      have h2 : (scrobbleKey x == scrobbleKey s) = false := by
        refine beq_eq_false_iff_ne.mpr fun he => ?_
        exact (List.nodup_cons.mp hnd).1 (he ▸ List.mem_map_of_mem _ hx)
      cases hc : (playKeys db ++ [scrobbleKey s]).contains (scrobbleKey x)
      · rfl
      · exfalso
        have hmem := List.elem_iff.mp hc
        rcases List.mem_append.mp hmem with hm | hm
        · have hcontr : (playKeys db).contains (scrobbleKey x) = true :=
            List.elem_iff.mpr hm
          rw [h1] at hcontr
          simp at hcontr
        · simp only [List.mem_singleton] at hm
          rw [hm] at h2
          simp at h2

/-- Characterization of a run without sampling or duplicate skipping under
a limit: the first `min L n` records are written, one further record (when
present) is drawn to trigger the limit check, and `limit_reached` is set
exactly then. -/
lemma add_scrobbles_none_char (recs : List Scrobble) {α : Type} [LinearOrder α]
    (rand : Nat → α) (db : Database) (L : Nat) :
    add_scrobbles db recs (none : Option α) rand (some L) false
      = (List.foldl add_scrobble_writes db (recs.take L),
         { total_processed := min (L + 1) recs.length, sampled := 0,
           added := min L recs.length, skipped := 0,
           limit_reached := decide (L < recs.length) }) := by
  show add_scrobbles_go none rand (some L) false recs db initStats [] 0 = _
  rw [add_go_none_char rand L recs db initStats [] 0 rfl]
  simp [initStats]

/-- C3: with duplicate skipping enabled (no sampling, no limit), a run is
exactly the run over the deduplicated record subsequence: every record
whose `(timestamp, track_id)` key is already in the store or earlier in the
run is counted skipped and issues no write at all; and re-ingesting N
distinct records leaves exactly N stored plays with the second run
reporting `added = 0`, `skipped = N`. -/
theorem c3_duplicate_skipping :
    (∀ (db : Database) (recs : List Scrobble) (α : Type) [LinearOrder α] (rand : Nat → α),
      add_scrobbles db recs (none : Option α) rand none true
        = (List.foldl add_scrobble_writes db (dedupNew (playKeys db) recs),
           { total_processed := recs.length, sampled := 0,
             added := (dedupNew (playKeys db) recs).length,
             skipped := recs.length - (dedupNew (playKeys db) recs).length,
             limit_reached := false }))
    ∧ (∀ (recs : List Scrobble) (α : Type) [LinearOrder α] (rand rand2 : Nat → α),
        (recs.map scrobbleKey).Nodup →
        (∀ s ∈ recs, s.play.track_id = s.track.id) →
        (add_scrobbles emptyDB recs (none : Option α) rand none true).2.added = recs.length ∧
        (add_scrobbles emptyDB recs (none : Option α) rand none true).1.plays.length
            = recs.length ∧
        add_scrobbles (add_scrobbles emptyDB recs (none : Option α) rand none true).1 recs
            (none : Option α) rand2 none true
          = ((add_scrobbles emptyDB recs (none : Option α) rand none true).1,
             { total_processed := recs.length, sampled := 0, added := 0,
               skipped := recs.length, limit_reached := false })) := by
  constructor
  · intro db recs α _ rand
    exact add_scrobbles_dup_char db recs rand
  · intro recs α _ rand rand2 hnd hwf
    have hchar := add_scrobbles_dup_char emptyDB recs rand
    have hded : dedupNew (playKeys emptyDB) recs = recs :=
      dedupNew_eq_self recs hnd _ (fun s _ => rfl)
    rw [hded] at hchar
    have hplays := foldl_writes_playKeys recs emptyDB hwf hnd (fun s _ => rfl)
    have hlen : (List.foldl add_scrobble_writes emptyDB recs).plays.length
        = recs.length := by
      have hl := congrArg List.length hplays
      simpa [playKeys, emptyDB] using hl
    refine ⟨?_, ?_, ?_⟩
    · rw [hchar]
    · rw [hchar]
      exact hlen
    · have hchar2 := add_scrobbles_dup_char
        (add_scrobbles emptyDB recs (none : Option α) rand none true).1 recs rand2
      have hdupAll : ∀ s ∈ recs,
          (playKeys (add_scrobbles emptyDB recs (none : Option α) rand none true).1).contains
              (scrobbleKey s) = true := by
        intro s hs
        rw [hchar]
        dsimp only
        rw [hplays]
        refine List.elem_iff.mpr ?_
        simp only [playKeys, emptyDB, List.map_nil, List.nil_append]
        exact List.mem_map_of_mem _ hs
      rw [hchar2, dedupNew_nil_of_all_dup recs _ hdupAll]
      simp

/-- Witness for C3 at three concrete distinct records. -/
theorem c3_duplicate_skipping_witness :
    ((c3Recs.map scrobbleKey).Nodup ∧ ∀ s ∈ c3Recs, s.play.track_id = s.track.id) ∧
    ((add_scrobbles emptyDB c3Recs (none : Option Int) (fun _ => 0) none true).1.plays.length
        = 3 ∧
      (add_scrobbles (add_scrobbles emptyDB c3Recs (none : Option Int) (fun _ => 0) none true).1
          c3Recs (none : Option Int) (fun _ => 0) none true).2.skipped = 3) := by
  have h := (c3_duplicate_skipping).2 c3Recs Int (fun _ => 0) (fun _ => 0)
    (by decide) (by decide)
  refine ⟨⟨by decide, by decide⟩, h.2.1, ?_⟩
  rw [h.2.2]
  decide

/-- C4 counterexample: with 100 input records and `limit = 5`, exactly 5
records are added and `limit_reached` is true, but the run consumes a sixth
record from the input — it does not stop "without consuming further
input". -/
theorem c4_counterexample :
    (add_scrobbles emptyDB c4Recs (none : Option Int) (fun _ => 0) (some 5) false).2.total_processed
        = 6 ∧
    (add_scrobbles emptyDB c4Recs (none : Option Int) (fun _ => 0) (some 5) false).2.total_processed
        ≠ 5 ∧
    (add_scrobbles emptyDB c4Recs (none : Option Int) (fun _ => 0) (some 5) false).2.added = 5 ∧
    (add_scrobbles emptyDB c4Recs (none : Option Int) (fun _ => 0) (some 5) false).2.limit_reached
        = true := by
  refine ⟨?_, ?_, ?_, ?_⟩ <;> decide

/-- C4 (amended): once `L` records are successfully added, `add_scrobbles`
stops after drawing at most one further record (the draw that triggers the
limit check); exactly `min L n` records are added, no further writes are
issued, and the report distinguishes the limit stop from input exhaustion
via `limit_reached`; in particular 100 records with `limit = 5` yield 5
added and `limit_reached = true`. -/
theorem c4_limit_semantics (recs : List Scrobble) (α : Type) [LinearOrder α]
    (rand : Nat → α) (db : Database) (L : Nat) :
    add_scrobbles db recs (none : Option α) rand (some L) false
      = (List.foldl add_scrobble_writes db (recs.take L),
         { total_processed := min (L + 1) recs.length, sampled := 0,
           added := min L recs.length, skipped := 0,
           limit_reached := decide (L < recs.length) }) :=
  add_scrobbles_none_char recs rand db L

/-- C10: exhausting the input after exactly `limit` added records reports
`limit_reached = false`; `limit_reached = true` requires that a further
record was drawn after the limit was met (so `total_processed = L + 1` and
the input was strictly longer than `L`). -/
theorem c10_limit_reached_only_on_further_draw :
    (∀ (recs : List Scrobble) (α : Type) [LinearOrder α] (rand : Nat → α)
        (db : Database) (L : Nat),
      recs.length = L →
        (add_scrobbles db recs (none : Option α) rand (some L) false).2.limit_reached = false ∧
        (add_scrobbles db recs (none : Option α) rand (some L) false).2.added = L)
    ∧ (∀ (recs : List Scrobble) (α : Type) [LinearOrder α] (rand : Nat → α)
        (db : Database) (L : Nat),
        (add_scrobbles db recs (none : Option α) rand (some L) false).2.limit_reached = true →
        L < recs.length ∧
        (add_scrobbles db recs (none : Option α) rand (some L) false).2.total_processed
          = L + 1) := by
  constructor
  · intro recs α _ rand db L hlen
    rw [add_scrobbles_none_char recs rand db L]
    subst hlen
    constructor
    · dsimp only
      simp
    · dsimp only
      simp
  · intro recs α _ rand db L hlr
    rw [add_scrobbles_none_char recs rand db L] at hlr ⊢
    dsimp only at hlr ⊢
    have hlt : L < recs.length := of_decide_eq_true hlr
    exact ⟨hlt, by simp; omega⟩

/-- Witness for C10: three records with `limit = 3` exhaust the input and
report no limit stop. -/
theorem c10_limit_reached_witness :
    (List.replicate 3 demoScrobble).length = 3 ∧
    (add_scrobbles emptyDB (List.replicate 3 demoScrobble) (none : Option Int)
        (fun _ => 0) (some 3) false).2.limit_reached = false :=
  ⟨by decide, (c10_limit_reached_only_on_further_draw.1 (List.replicate 3 demoScrobble)
    Int (fun _ => 0) emptyDB 3 (by decide)).1⟩

lemma add_go_none_k_irrel {α : Type} [LinearOrder α] (rand : Nat → α)
    (limit : Option Nat) (noDup : Bool) :
    ∀ (recs : List Scrobble) (db : Database) (st : IngestStats)
      (ex : List (String × String)) (k k2 : Nat),
    add_scrobbles_go (α := α) none rand limit noDup recs db st ex k
      = add_scrobbles_go (α := α) none rand limit noDup recs db st ex k2 := by
  intro recs
  induction recs with
  | nil => intro db st ex k k2; rfl
  | cons s rest ih =>
    intro db st ex k k2
    simp only [add_scrobbles_go]
    by_cases hc : (ingest_step limit noDup s db
        { st with total_processed := st.total_processed + 1 } ex).2.2.2 = true
    · rw [if_pos hc, if_pos hc]
      exact ih _ _ _ k k2
    · rw [if_neg hc, if_neg hc]

lemma ingest_step_rel (limit : Option Nat) (noDup : Bool) (s : Scrobble) (db : Database)
    (ex : List (String × String)) (st₁ st₂ : IngestStats)
    (ha : st₁.added = st₂.added) (hs : st₁.skipped = st₂.skipped)
    (hl : st₁.limit_reached = st₂.limit_reached) :
    (ingest_step limit noDup s db st₁ ex).1 = (ingest_step limit noDup s db st₂ ex).1 ∧
    (ingest_step limit noDup s db st₁ ex).2.2.1
        = (ingest_step limit noDup s db st₂ ex).2.2.1 ∧
    (ingest_step limit noDup s db st₁ ex).2.2.2
        = (ingest_step limit noDup s db st₂ ex).2.2.2 ∧
    (ingest_step limit noDup s db st₁ ex).2.1.added
        = (ingest_step limit noDup s db st₂ ex).2.1.added ∧
    (ingest_step limit noDup s db st₁ ex).2.1.skipped
        = (ingest_step limit noDup s db st₂ ex).2.1.skipped ∧
    (ingest_step limit noDup s db st₁ ex).2.1.limit_reached
        = (ingest_step limit noDup s db st₂ ex).2.1.limit_reached := by
  by_cases hLH : limitHit limit st₂.added = true
  · refine ⟨?_, ?_, ?_, ?_, ?_, ?_⟩ <;> simp [ingest_step, ha, hLH, hs, hl]
  · by_cases hd : noDup = true ∧ scrobbleKey s ∈ ex
    · refine ⟨?_, ?_, ?_, ?_, ?_, ?_⟩ <;> simp [ingest_step, ha, hLH, hd, hs, hl]
    · refine ⟨?_, ?_, ?_, ?_, ?_, ?_⟩ <;> simp [ingest_step, ha, hLH, hd, hs, hl]

lemma add_go_sample_equiv {α : Type} [LinearOrder α] (p : α) (rand : Nat → α)
    (limit : Option Nat) (noDup : Bool) :
    ∀ (recs : List Scrobble) (k : Nat) (db : Database) (st₁ st₂ : IngestStats)
      (ex : List (String × String)),
    st₁.added = st₂.added → st₁.skipped = st₂.skipped →
    st₁.limit_reached = st₂.limit_reached →
    (add_scrobbles_go (some p) rand limit noDup recs db st₁ ex k).1
        = (add_scrobbles_go (α := α) none rand limit noDup
            (sampleKept p rand k recs) db st₂ ex k).1 ∧
    (add_scrobbles_go (some p) rand limit noDup recs db st₁ ex k).2.added
        = (add_scrobbles_go (α := α) none rand limit noDup
            (sampleKept p rand k recs) db st₂ ex k).2.added ∧
    (add_scrobbles_go (some p) rand limit noDup recs db st₁ ex k).2.skipped
        = (add_scrobbles_go (α := α) none rand limit noDup
            (sampleKept p rand k recs) db st₂ ex k).2.skipped ∧
    (add_scrobbles_go (some p) rand limit noDup recs db st₁ ex k).2.limit_reached
        = (add_scrobbles_go (α := α) none rand limit noDup
            (sampleKept p rand k recs) db st₂ ex k).2.limit_reached := by
  intro recs
  induction recs with
  | nil =>
    intro k db st₁ st₂ ex ha hs hl
    exact ⟨rfl, ha, hs, hl⟩
  | cons s rest ih =>
    intro k db st₁ st₂ ex ha hs hl
    by_cases hk : p ≤ rand k
    · -- record excluded by sampling: the loop continues without a limit check
      have hkept : sampleKept p rand k (s :: rest) = sampleKept p rand (k + 1) rest := by
        simp only [sampleKept, if_pos hk]
      rw [hkept]
      have hstep : add_scrobbles_go (some p) rand limit noDup (s :: rest) db st₁ ex k
          = add_scrobbles_go (some p) rand limit noDup rest db
              { st₁ with total_processed := st₁.total_processed + 1 } ex (k + 1) := by
        simp only [add_scrobbles_go, if_pos hk]
      rw [hstep, add_go_none_k_irrel rand limit noDup _ db st₂ ex k (k + 1)]
      exact ih (k + 1) db _ st₂ ex ha hs hl
    · -- record included: both runs perform the same limit check and body
      have hkept : sampleKept p rand k (s :: rest) = s :: sampleKept p rand (k + 1) rest := by
        simp only [sampleKept, if_neg hk]
      rw [hkept]
      have hstep1 : add_scrobbles_go (some p) rand limit noDup (s :: rest) db st₁ ex k
          = (let st := { st₁ with total_processed := st₁.total_processed + 1, sampled := st₁.sampled + 1 }
             let r := ingest_step limit noDup s db st ex
             if r.2.2.2 then add_scrobbles_go (some p) rand limit noDup rest r.1 r.2.1
                r.2.2.1 (k + 1)
             else (r.1, r.2.1)) := by
        simp only [add_scrobbles_go, if_neg hk]
      have hstep2 : add_scrobbles_go (α := α) none rand limit noDup
            (s :: sampleKept p rand (k + 1) rest) db st₂ ex k
          = (let st := { st₂ with total_processed := st₂.total_processed + 1 }
             let r := ingest_step limit noDup s db st ex
             if r.2.2.2 then add_scrobbles_go (α := α) none rand limit noDup
                (sampleKept p rand (k + 1) rest) r.1 r.2.1 r.2.2.1 k
             else (r.1, r.2.1)) := by
        simp only [add_scrobbles_go]
      rw [hstep1, hstep2]
      have hrel := ingest_step_rel limit noDup s db ex
        { st₁ with total_processed := st₁.total_processed + 1, sampled := st₁.sampled + 1 }
        { st₂ with total_processed := st₂.total_processed + 1 }
        (by simpa using ha) (by simpa using hs) (by simpa using hl)
      obtain ⟨hdb, hex, hcont, ha', hs', hl'⟩ := hrel
      dsimp only
      rw [hcont]
      by_cases hc : (ingest_step limit noDup s db
          { st₂ with total_processed := st₂.total_processed + 1 } ex).2.2.2 = true
      · rw [if_pos hc, if_pos hc, hdb, hex,
          add_go_none_k_irrel rand limit noDup _ _ _ _ k (k + 1)]
        exact ih (k + 1) _ _ _ _ ha' hs' hl'
      · rw [if_neg hc, if_neg hc, hdb]
        exact ⟨rfl, ha', hs', hl'⟩

lemma add_go_all_excluded {α : Type} [LinearOrder α] (p : α) (rand : Nat → α)
    (limit : Option Nat) (noDup : Bool) (h0 : ∀ n, p ≤ rand n) :
    ∀ (recs : List Scrobble) (db : Database) (st : IngestStats)
      (ex : List (String × String)) (k : Nat),
    add_scrobbles_go (some p) rand limit noDup recs db st ex k
      = (db, { st with total_processed := st.total_processed + recs.length }) := by
  intro recs
  induction recs with
  | nil =>
    intro db st ex k
    obtain ⟨tp, sm, ad, sk, lr⟩ := st
    simp [add_scrobbles_go]
  | cons s rest ih =>
    intro db st ex k
    simp only [add_scrobbles_go, if_pos (h0 k)]
    rw [ih db { st with total_processed := st.total_processed + 1 } ex (k + 1)]
    simp only [List.length_cons, IngestStats.mk.injEq]
    refine Prod.ext rfl ?_
    dsimp only
    simp only [IngestStats.mk.injEq]
    refine ⟨?_, ?_, ?_, ?_, ?_⟩ <;> first | trivial | omega

lemma sampleKept_all_excluded {α : Type} [LinearOrder α] (p : α) (rand : Nat → α)
    (h0 : ∀ n, p ≤ rand n) :
    ∀ (recs : List Scrobble) (k : Nat), sampleKept p rand k recs = [] := by
  intro recs
  induction recs with
  | nil => intro k; rfl
  | cons s rest ih =>
    intro k
    simp only [sampleKept, if_pos (h0 k)]
    exact ih (k + 1)

lemma sampleKept_all_included {α : Type} [LinearOrder α] (p : α) (rand : Nat → α)
    (h1 : ∀ n, rand n < p) :
    ∀ (recs : List Scrobble) (k : Nat), sampleKept p rand k recs = recs := by
  intro recs
  induction recs with
  | nil => intro k; rfl
  | cons s rest ih =>
    intro k
    simp only [sampleKept, if_neg (not_le.mpr (h1 k))]
    rw [ih (k + 1)]

/-- C5: the sampling decision is taken before the limit check and excluded
records never count toward the limit — a sampled run has exactly the
database effect, added count, skipped count and limit flag of the
unsampled run over the records surviving sampling; a probability below
every random draw (`sample = 0.0`, since `random() ∈ [0, 1)`) yields
`added = 0` and an untouched database; a probability above every draw
(`sample = 1.0`) yields the same database and added count as disabling
sampling; and identical input, probability and seeded random stream give
identical results. -/
theorem c5_sampling_semantics :
    (∀ (α : Type) [LinearOrder α] (p : α) (rand : Nat → α) (db : Database)
        (recs : List Scrobble) (limit : Option Nat) (noDup : Bool),
      (∀ n, p ≤ rand n) →
      add_scrobbles db recs (some p) rand limit noDup
        = (db, { total_processed := recs.length, sampled := 0, added := 0,
                 skipped := 0, limit_reached := false }))
    ∧ (∀ (α : Type) [LinearOrder α] (p : α) (rand : Nat → α) (db : Database)
        (recs : List Scrobble) (limit : Option Nat) (noDup : Bool),
      (∀ n, rand n < p) →
      (add_scrobbles db recs (some p) rand limit noDup).1
          = (add_scrobbles db recs (none : Option α) rand limit noDup).1 ∧
      (add_scrobbles db recs (some p) rand limit noDup).2.added
          = (add_scrobbles db recs (none : Option α) rand limit noDup).2.added)
    ∧ (∀ (α : Type) [LinearOrder α] (p : α) (rand₁ rand₂ : Nat → α) (db : Database)
        (recs : List Scrobble) (limit : Option Nat) (noDup : Bool),
      (∀ n, rand₁ n = rand₂ n) →
      add_scrobbles db recs (some p) rand₁ limit noDup
        = add_scrobbles db recs (some p) rand₂ limit noDup)
    ∧ (∀ (α : Type) [LinearOrder α] (p : α) (rand : Nat → α) (db : Database)
        (recs : List Scrobble) (limit : Option Nat) (noDup : Bool),
      (add_scrobbles db recs (some p) rand limit noDup).1
          = (add_scrobbles db (sampleKept p rand 0 recs) (none : Option α)
              rand limit noDup).1 ∧
      (add_scrobbles db recs (some p) rand limit noDup).2.added
          = (add_scrobbles db (sampleKept p rand 0 recs) (none : Option α)
              rand limit noDup).2.added ∧
      (add_scrobbles db recs (some p) rand limit noDup).2.skipped
          = (add_scrobbles db (sampleKept p rand 0 recs) (none : Option α)
              rand limit noDup).2.skipped ∧
      (add_scrobbles db recs (some p) rand limit noDup).2.limit_reached
          = (add_scrobbles db (sampleKept p rand 0 recs) (none : Option α)
              rand limit noDup).2.limit_reached) := by
  refine ⟨?_, ?_, ?_, ?_⟩
  · intro α _ p rand db recs limit noDup h0
    show add_scrobbles_go (some p) rand limit noDup recs db initStats _ 0 = _
    rw [add_go_all_excluded p rand limit noDup h0]
    simp [initStats]
  · intro α _ p rand db recs limit noDup h1
    have h := add_go_sample_equiv p rand limit noDup recs 0 db initStats initStats
      (if noDup then playKeys db else []) rfl rfl rfl
    rw [sampleKept_all_included p rand h1 recs 0] at h
    exact ⟨h.1, h.2.1⟩
  · intro α _ p rand₁ rand₂ db recs limit noDup he
    have : rand₁ = rand₂ := funext he
    rw [this]
  · intro α _ p rand db recs limit noDup
    exact add_go_sample_equiv p rand limit noDup recs 0 db initStats initStats
      (if noDup then playKeys db else []) rfl rfl rfl

/-- Witness for C5 at concrete probabilities 0 and 1 over the integers. -/
theorem c5_sampling_semantics_witness :
    (∀ n : Nat, (0 : Int) ≤ (fun _ => (0 : Int)) n) ∧
    (add_scrobbles emptyDB c3Recs (some (0 : Int)) (fun _ => 0) none false).2.added = 0 ∧
    (∀ n : Nat, ((fun _ => (0 : Int)) n) < 1) ∧
    (add_scrobbles emptyDB c3Recs (some (1 : Int)) (fun _ => 0) none false).2.added
      = (add_scrobbles emptyDB c3Recs (none : Option Int) (fun _ => 0) none false).2.added := by
  refine ⟨fun _ => le_refl 0, ?_, fun _ => Int.zero_lt_one, ?_⟩
  · rw [(c5_sampling_semantics.1 Int 0 (fun _ => 0) emptyDB c3Recs none false
      (fun _ => le_refl 0))]
  · exact ((c5_sampling_semantics.2.1 Int 1 (fun _ => 0) emptyDB c3Recs none false
      (fun _ => Int.zero_lt_one))).2

/-! ## Stable sort lemmas and read-side query claims -/

lemma lexLe_refl : ∀ l : List Char, lexLeChars l l = true := by
  intro l
  induction l with
  | nil => rfl
  | cons c cs ih => simp [lexLeChars, ih]

lemma stableInsert_perm {γ : Type} (le : γ → γ → Bool) (x : γ) :
    ∀ l : List γ, (stableInsert le x l).Perm (x :: l) := by
  intro l
  induction l with
  | nil => rfl
  | cons y ys ih =>
    simp only [stableInsert]
    by_cases h : le y x = true
    · rw [if_pos h]
      exact (ih.cons y).trans (List.Perm.swap x y ys)
    · rw [if_neg h]

lemma stableSort_aux_perm {γ : Type} (le : γ → γ → Bool) :
    ∀ (l acc : List γ),
    (l.foldl (fun acc x => stableInsert le x acc) acc).Perm (l ++ acc) := by
  intro l
  induction l with
  | nil => intro acc; simp
  | cons x xs ih =>
    intro acc
    rw [List.foldl_cons]
    refine (ih (stableInsert le x acc)).trans ?_
    refine (List.Perm.append_left xs (stableInsert_perm le x acc)).trans ?_
    exact List.perm_middle

lemma stableSort_perm {γ : Type} (le : γ → γ → Bool) (l : List γ) :
    (stableSort le l).Perm l := by
  have h := stableSort_aux_perm le l []
  simpa [stableSort] using h

lemma stableInsert_sorted {γ : Type} (le : γ → γ → Bool)
    (htrans : ∀ a b c, le a b = true → le b c = true → le a c = true)
    (htot : ∀ a b, le a b = false → le b a = true) (x : γ) :
    ∀ l : List γ, l.Pairwise (fun a b => le a b = true) →
    (stableInsert le x l).Pairwise (fun a b => le a b = true) := by
  intro l
  induction l with
  | nil => intro _; simp [stableInsert]
  | cons y ys ih =>
    intro hp
    obtain ⟨hy, hys⟩ := List.pairwise_cons.mp hp
    simp only [stableInsert]
    by_cases h : le y x = true
    · rw [if_pos h]
      refine List.pairwise_cons.mpr ⟨?_, ih hys⟩
      intro z hz
      rcases List.mem_cons.mp ((stableInsert_perm le x ys).mem_iff.mp hz) with rfl | hz2
      · exact h
      · exact hy z hz2
    · rw [if_neg h]
      have hxy : le x y = true := htot y x (by rwa [Bool.not_eq_true] at h)
      refine List.pairwise_cons.mpr ⟨?_, hp⟩
      intro z hz
      rcases List.mem_cons.mp hz with rfl | hz2
      · exact hxy
      · exact htrans x y z hxy (hy z hz2)

lemma stableSort_sorted {γ : Type} (le : γ → γ → Bool)
    (htrans : ∀ a b c, le a b = true → le b c = true → le a c = true)
    (htot : ∀ a b, le a b = false → le b a = true) :
    ∀ (l acc : List γ), acc.Pairwise (fun a b => le a b = true) →
    (l.foldl (fun acc x => stableInsert le x acc) acc).Pairwise
      (fun a b => le a b = true) := by
  intro l
  induction l with
  | nil => intro acc h; simpa using h
  | cons x xs ih =>
    intro acc h
    rw [List.foldl_cons]
    exact ih _ (stableInsert_sorted le htrans htot x acc h)

/-- C7 counterexample: a name lookup matching two rows raises `ValueError`
(modelled as `Except.error`) instead of returning a structured outcome. -/
theorem c7_counterexample :
    get_artist_details c7Db none (some "Artist")
      = Except.error ("Multiple artists match \x27Artist\x27") := rfl

/-- C7 (amended): a point lookup by name distinguishes three outcomes — no
match returns `None`, exactly one match returns the details, and more than
one match raises `ValueError` (a distinct "ambiguous" outcome, but an
exception rather than a structured return). -/
theorem c7_lookup_outcomes (db : Database) (nm : String) (hne : nm ≠ "") :
    ((db.artists.filter fun a => likeContains nm a.name) = [] →
      get_artist_details db none (some nm) = Except.ok none) ∧
    (2 ≤ (db.artists.filter fun a => likeContains nm a.name).length →
      get_artist_details db none (some nm)
        = Except.error ("Multiple artists match \x27" ++ nm ++ "\x27")) ∧
    (∀ a, (db.artists.filter fun a2 => likeContains nm a2.name) = [a] →
      get_artist_details db none (some nm)
        = Except.ok (some (mkArtistDetails db a))) := by
  have hbeq : (nm == "") = false := beq_eq_false_iff_ne.mpr hne
  refine ⟨?_, ?_, ?_⟩
  · intro h0
    simp [get_artist_details, h0, hbeq]
  · intro h2
    rcases hf : db.artists.filter fun a => likeContains nm a.name with _ | ⟨x, xs⟩
    · rw [hf] at h2
      simp at h2
    · rcases xs with _ | ⟨y, ys⟩
      · rw [hf] at h2
        simp at h2
      · simp [get_artist_details, hf, hbeq]
  · intro a ha
    simp [get_artist_details, ha, hbeq]

/-- Witness for C7: a unique match returns its details structurally. -/
theorem c7_lookup_outcomes_witness :
    ("Solo" ≠ "") ∧
    get_artist_details c7WitnessDb none (some "Solo")
      = Except.ok (some (mkArtistDetails c7WitnessDb ⟨"a1", "Solo Artist"⟩)) := by
  refine ⟨by decide, ?_⟩
  exact (c7_lookup_outcomes c7WitnessDb "Solo" (by decide)).2.2
    ⟨"a1", "Solo Artist"⟩ (by decide)

/-- C8 counterexample: a play whose timestamp equals `until` is counted by
`get_top_artists` (play_count 2), though only one play is strictly before
`until` — the window is closed, not half-open. -/
theorem c8_counterexample :
    ((get_top_artists c8Db (some "2024-01-01T00:00:00") (some "2024-01-02T00:00:00")
        10 1).map fun r => r.play_count) = [2] ∧
    (c8Db.plays.filter fun pl =>
        strLeB "2024-01-01T00:00:00" pl.timestamp
          && strLeB pl.timestamp "2024-01-02T00:00:00"
          && !(pl.timestamp == "2024-01-02T00:00:00")).length = 1 := by
  constructor
  · decide
  · decide

/-- C8 (amended): with an explicit window, `get_top_artists` treats it as
the closed interval `[since, until]`: the total-play denominator counts
exactly the plays with `since ≤ ts ≤ until` (string comparison on the
stored text, both bounds inclusive), every returned row's `play_count` is
the number of joined plays of that artist within the closed window, and a
play with timestamp exactly `until` is inside the window. -/
theorem c8_window_closed (db : Database) (s u : String) (limit : Nat) (days : ℚ) :
    ((db.plays.filter fun pl => tsInWindow (some s) (some u) pl.timestamp).length
        = (db.plays.filter fun pl =>
            strLeB s pl.timestamp && strLeB pl.timestamp u).length) ∧
    (∀ r ∈ get_top_artists db (some s) (some u) limit days,
      ∃ a ∈ db.artists, r.artist_id = a.id ∧ r.artist_name = a.name ∧
        r.play_count = (artistWindowPlays db (some s) (some u) a).length ∧
        0 < r.play_count) ∧
    (∀ pl ∈ db.plays, pl.timestamp = u → strLeB s u = true →
      tsInWindow (some s) (some u) pl.timestamp = true) := by
  refine ⟨rfl, ?_, ?_⟩
  · intro r hr
    simp only [get_top_artists] at hr
    obtain ⟨⟨i, g⟩, hmem, hreq⟩ := List.mem_map.mp hr
    have hg : g ∈ (stableSort (fun x y => decide (y.2 ≤ x.2))
        ((db.artists.map fun a => (a, (artistWindowPlays db (some s) (some u) a).length)).filter
          fun g => !(g.2 == 0))).take limit := by
      have h1 := List.mem_enum hmem
      exact h1.2 ▸ List.getElem_mem h1.1
    have hg2 : g ∈ (db.artists.map fun a =>
        (a, (artistWindowPlays db (some s) (some u) a).length)).filter fun g => !(g.2 == 0) :=
      (stableSort_perm _ _).mem_iff.mp ((List.take_sublist _ _).mem hg)
    have hg3 := List.mem_filter.mp hg2
    obtain ⟨a, ha, hpair⟩ := List.mem_map.mp hg3.1
    refine ⟨a, ha, ?_, ?_, ?_, ?_⟩
    · rw [← hreq, ← hpair]
    · rw [← hreq, ← hpair]
    · rw [← hreq, ← hpair]
    · have hpos : g.2 ≠ 0 := by
        have hne := hg3.2
        simpa using hne
      have hpc : r.play_count = g.2 := by rw [← hreq]
      omega
  · intro pl _ hts hle
    rw [hts]
    simp only [tsInWindow]
    rw [Bool.and_eq_true]
    exact ⟨hle, lexLe_refl u.data⟩

/-! ## C9: the fetcher item cap -/

lemma yieldPage_spec {τ : Type} (L : Nat) (hL : 0 < L) :
    ∀ (items : List τ) (y : Nat), y < L →
    (L ≤ y + items.length →
      yieldPage (some L) items y = (items.take (L - y), L, true)) ∧
    (y + items.length < L →
      yieldPage (some L) items y = (items, y + items.length, false)) := by
  intro items
  induction items with
  | nil =>
    intro y hy
    refine ⟨?_, ?_⟩
    · intro h
      simp at h
      omega
    · intro _; simp [yieldPage]
  | cons x rest ih =>
    intro y hy
    have hcapval : limitCap (some L) (y + 1) = decide (L ≤ y + 1) := by
      simp [limitCap]
      omega
    refine ⟨?_, ?_⟩
    · intro h
      by_cases hfire : L ≤ y + 1
      · have hLy : L = y + 1 := by omega
        have htk : (x :: rest).take (L - y) = [x] := by
          rw [hLy]
          simp
        simp only [yieldPage, hcapval]
        rw [if_pos (decide_eq_true hfire), htk, hLy]
      · have hy1 : y + 1 < L := by omega
        have hrec := (ih (y + 1) hy1).1 (by simp at h ⊢; omega)
        simp only [yieldPage, hcapval]
        rw [if_neg (by simpa using hfire), hrec]
        have : (x :: rest).take (L - y) = x :: rest.take (L - (y + 1)) := by
          have hLy2 : L - y = (L - (y + 1)) + 1 := by omega
          rw [hLy2]
          simp
        rw [this]
    · intro h
      have hy1 : y + 1 < L := by
        simp at h
        omega
      have hrec := (ih (y + 1) hy1).2 (by simp at h ⊢; omega)
      simp only [yieldPage, hcapval]
      rw [if_neg (by simp; omega), hrec]
      simp
      omega

lemma recent_tracks_loop_spec {τ : Type} (pages : Nat → List τ) (totalPages L : Nat)
    (hL : 0 < L) :
    ∀ (fuel page y : Nat), 1 ≤ fuel → totalPages + 1 ≤ page + fuel → y < L →
    (recent_tracks_loop pages totalPages (some L) fuel page y).1
      = ((List.range' page (max totalPages page + 1 - page)).flatMap pages).take (L - y) ∧
    1 ≤ (recent_tracks_loop pages totalPages (some L) fuel page y).2 ∧
    (recent_tracks_loop pages totalPages (some L) fuel page y).2
      ≤ max totalPages page + 1 - page ∧
    (∀ j, 1 ≤ j → j < (recent_tracks_loop pages totalPages (some L) fuel page y).2 →
      y + ((List.range' page j).flatMap pages).length < L) := by
  intro fuel
  induction fuel with
  | zero =>
    intro page y h1 _ _
    omega
  | succ fuel ih =>
    intro page y _ h2 hy
    by_cases hcap : L ≤ y + (pages page).length
    · have hyp := (yieldPage_spec L hL (pages page) y hy).1 hcap
      have hrw : recent_tracks_loop pages totalPages (some L) (fuel + 1) page y
          = ((pages page).take (L - y), 1) := by
        simp only [recent_tracks_loop, hyp]
        rw [if_pos trivial]
      rw [hrw]
      have hnp : 1 ≤ max totalPages page + 1 - page := by omega
      refine ⟨?_, le_refl 1, hnp, ?_⟩
      · have hcons : List.range' page (max totalPages page + 1 - page)
            = page :: List.range' (page + 1) (max totalPages page - page) := by
          have : max totalPages page + 1 - page = (max totalPages page - page) + 1 := by omega
          rw [this]
          rfl
        rw [hcons, List.flatMap_cons,
          List.take_append_of_le_length (by omega : L - y ≤ (pages page).length)]
      · intro j hj1 hj2
        omega
    · have hyp := (yieldPage_spec L hL (pages page) y hy).2 (by omega)
      by_cases hlast : totalPages < page + 1
      · have hrw : recent_tracks_loop pages totalPages (some L) (fuel + 1) page y
            = (pages page, 1) := by
          simp only [recent_tracks_loop, hyp]
          rw [if_neg (by simp), if_pos hlast]
        rw [hrw]
        have hmax : max totalPages page = page := by omega
        refine ⟨?_, le_refl 1, by omega, ?_⟩
        · rw [hmax]
          have : page + 1 - page = 1 := by omega
          rw [this]
          simp only [List.range'_one, List.flatMap_cons, List.flatMap_nil, List.append_nil]
          exact (List.take_of_length_le (by omega)).symm
        · intro j hj1 hj2
          omega
      · have hrec := ih (page + 1) (y + (pages page).length) (by omega) (by omega) (by omega)
        have hrw : recent_tracks_loop pages totalPages (some L) (fuel + 1) page y
            = (pages page
                ++ (recent_tracks_loop pages totalPages (some L) fuel (page + 1)
                    (y + (pages page).length)).1,
               1 + (recent_tracks_loop pages totalPages (some L) fuel (page + 1)
                    (y + (pages page).length)).2) := by
          simp only [recent_tracks_loop, hyp]
          rw [if_neg (by simp), if_neg hlast]
        rw [hrw]
        obtain ⟨e1, e2a, e2b, e3⟩ := hrec
        have hmax1 : max totalPages (page + 1) = totalPages := by omega
        have hmax0 : max totalPages page = totalPages := by omega
        rw [hmax1] at e1 e2b
        refine ⟨?_, by omega, by rw [hmax0]; omega, ?_⟩
        · have hcons : List.range' page (max totalPages page + 1 - page)
              = page :: List.range' (page + 1) (totalPages - page) := by
            rw [hmax0]
            have : totalPages + 1 - page = (totalPages - page) + 1 := by omega
            rw [this]
            rfl
          rw [hcons, List.flatMap_cons, List.take_append_eq_append_take,
            List.take_of_length_le (by omega : (pages page).length ≤ L - y), e1]
          have : L - y - (pages page).length = L - (y + (pages page).length) := by omega
          rw [this]
          have : totalPages + 1 - (page + 1) = totalPages - page := by omega
          rw [this]
        · intro j hj1 hj2
          rcases Nat.eq_or_lt_of_le hj1 with hj | hj
          · have : List.range' page j = [page] := by
              rw [← hj]
              simp [List.range'_one]
            rw [this]
            simp only [List.flatMap_cons, List.flatMap_nil, List.append_nil]
            omega
          · have hj3 := e3 (j - 1) (by omega) (by omega)
            have hcons : List.range' page j = page :: List.range' (page + 1) (j - 1) := by
              have : j = (j - 1) + 1 := by omega
              rw [this]
              rfl
            rw [hcons]
            simp only [List.flatMap_cons, List.length_append]
            omega

/-- C9: with a configured cap `L > 0`, `recent_tracks` yields exactly the
first `L` items of the concatenated pages (the cap is checked after every
yielded item, so the generator stops mid-page and never over-yields), and a
page is only ever requested while the accumulated count is still below the
cap — once the cap is reached no further page request is issued. -/
theorem c9_item_cap {τ : Type} (pages : Nat → List τ) (totalPages L : Nat)
    (hL : 0 < L) :
    (recent_tracks pages totalPages (some L)).1
      = ((List.range' 1 (max totalPages 1)).flatMap pages).take L ∧
    (recent_tracks pages totalPages (some L)).1.length ≤ L ∧
    1 ≤ (recent_tracks pages totalPages (some L)).2 ∧
    (recent_tracks pages totalPages (some L)).2 ≤ max totalPages 1 ∧
    (∀ j, 1 ≤ j → j < (recent_tracks pages totalPages (some L)).2 →
      ((List.range' 1 j).flatMap pages).length < L) := by
  have h := recent_tracks_loop_spec pages totalPages L hL (max totalPages 1) 1 0
    (by omega) (by omega) hL
  obtain ⟨e1, e2a, e2b, e3⟩ := h
  have hnp : max totalPages 1 + 1 - 1 = max totalPages 1 := by omega
  rw [hnp] at e1 e2b
  have hL0 : L - 0 = L := by omega
  rw [hL0] at e1
  unfold recent_tracks
  refine ⟨e1, ?_, e2a, e2b, ?_⟩
  · rw [e1]
    exact List.length_take_le L _
  · intro j hj1 hj2
    have := e3 j hj1 hj2
    omega

/-- Witness for C9: three pages of three items with cap 4 — the fetch stops
mid-page 2 with exactly 4 items after only 2 page requests. -/
theorem c9_item_cap_witness :
    (0 < 4 ∧
      ((recent_tracks c9Pages 3 (some 4)).1
          = ((List.range' 1 (max 3 1)).flatMap c9Pages).take 4 ∧
        (recent_tracks c9Pages 3 (some 4)).1.length ≤ 4 ∧
        1 ≤ (recent_tracks c9Pages 3 (some 4)).2 ∧
        (recent_tracks c9Pages 3 (some 4)).2 ≤ max 3 1 ∧
        (∀ j, 1 ≤ j → j < (recent_tracks c9Pages 3 (some 4)).2 →
          ((List.range' 1 j).flatMap c9Pages).length < 4))) ∧
    recent_tracks c9Pages 3 (some 4) = ([10, 11, 12, 20], 2) :=
  ⟨⟨by decide, c9_item_cap c9Pages 3 4 (by decide)⟩, by decide⟩

/-! ## C6: the fuzzy search pipeline -/

lemma get_artists_by_search_eq (db : Database) (ftsRows : List (String × String))
    (score : String → String → Int) (q : String) (limit : Nat) :
    get_artists_by_search db ftsRows score q limit
      = searchCore db score q limit (searchCandidates db ftsRows q limit) := rfl

lemma mem_dedupKeepFirstAux :
    ∀ (l seen : List String) (x : String),
    x ∈ dedupKeepFirstAux seen l → x ∈ l ∧ x ∉ seen := by
  intro l
  induction l with
  | nil =>
    intro seen x hx
    simp [dedupKeepFirstAux] at hx
  | cons y ys ih =>
    intro seen x hx
    simp only [dedupKeepFirstAux] at hx
    by_cases h : seen.contains y
    · rw [if_pos h] at hx
      have := ih seen x hx
      exact ⟨List.mem_cons_of_mem y this.1, this.2⟩
    · rw [if_neg h] at hx
      rcases List.mem_cons.mp hx with rfl | hx2
      · refine ⟨List.mem_cons_self x ys, ?_⟩
        simpa using h
      · have := ih (y :: seen) x hx2
        refine ⟨List.mem_cons_of_mem y this.1, ?_⟩
        intro hmem
        exact this.2 (List.mem_cons_of_mem y hmem)

lemma nodup_dedupKeepFirstAux :
    ∀ (l seen : List String), (dedupKeepFirstAux seen l).Nodup := by
  intro l
  induction l with
  | nil => intro seen; simp [dedupKeepFirstAux]
  | cons y ys ih =>
    intro seen
    simp only [dedupKeepFirstAux]
    by_cases h : seen.contains y
    · rw [if_pos h]
      exact ih seen
    · rw [if_neg h]
      refine List.nodup_cons.mpr ⟨?_, ih (y :: seen)⟩
      intro hmem
      exact (mem_dedupKeepFirstAux ys (y :: seen) y hmem).2 (List.mem_cons_self y seen)

lemma nodup_dedupKeepFirst (l : List String) : (dedupKeepFirst l).Nodup :=
  nodup_dedupKeepFirstAux l []

lemma mem_dedupKeepFirst {l : List String} {x : String}
    (hx : x ∈ dedupKeepFirst l) : x ∈ l :=
  (mem_dedupKeepFirstAux l [] x hx).1

lemma searchCandidates_nodup (db : Database) (ftsRows : List (String × String))
    (q : String) (limit : Nat) : (searchCandidates db ftsRows q limit).Nodup := by
  simp only [searchCandidates]
  by_cases h : (dedupKeepFirst (ftsRows.map fun r => r.1)).length < limit
  · rw [if_pos h]
    refine List.Nodup.sublist (List.take_sublist _ _) ?_
    refine List.Nodup.append (nodup_dedupKeepFirst _) ?_ ?_
    · exact List.Nodup.filter _
        (List.Nodup.sublist (List.take_sublist _ _) (nodup_dedupKeepFirst _))
    · intro a ha hmem
      have := (List.mem_filter.mp hmem).2
      simp at this
      exact this ha
  · rw [if_neg h]
    exact nodup_dedupKeepFirst _

lemma searchCandidates_mem (db : Database) (ftsRows : List (String × String))
    (q : String) (limit : Nat) (i : String)
    (hi : i ∈ searchCandidates db ftsRows q limit) :
    i ∈ ftsRows.map (fun p => p.1) ∨
      ∃ a ∈ db.artists, i = a.id ∧ likeContains q a.name = true := by
  simp only [searchCandidates] at hi
  by_cases h : (dedupKeepFirst (ftsRows.map fun r => r.1)).length < limit
  · rw [if_pos h] at hi
    have hi2 := (List.take_sublist _ _).mem hi
    rcases List.mem_append.mp hi2 with hl | hr
    · exact Or.inl (mem_dedupKeepFirst hl)
    · have hr2 := (List.mem_filter.mp hr).1
      have hr3 := mem_dedupKeepFirst ((List.take_sublist _ _).mem hr2)
      obtain ⟨a, ha, hid⟩ := List.mem_map.mp hr3
      have ha2 := List.mem_filter.mp ha
      exact Or.inr ⟨a, ha2.1, hid.symm, ha2.2⟩
  · rw [if_neg h] at hi
    exact Or.inl (mem_dedupKeepFirst hi)

lemma searchCandidates_fts_only (db : Database) (ftsRows : List (String × String))
    (q : String) (limit : Nat)
    (h : limit ≤ (dedupKeepFirst (ftsRows.map fun p => p.1)).length) :
    searchCandidates db ftsRows q limit = dedupKeepFirst (ftsRows.map fun p => p.1) := by
  simp only [searchCandidates]
  rw [if_neg (by omega)]

lemma searchRows_mem (db : Database) (ids : List String) (r : SearchArtist)
    (hr : r ∈ ids.filterMap fun i =>
      (db.artists.find? fun a => a.id == i).map (mkSearchArtist db)) :
    ∃ a ∈ db.artists, r = mkSearchArtist db a ∧ r.artist_id ∈ ids := by
  obtain ⟨i, hi, hf⟩ := List.mem_filterMap.mp hr
  obtain ⟨a, hfind, hmap⟩ := Option.map_eq_some'.mp hf
  have ha := List.mem_of_find?_eq_some hfind
  have hpa : a.id = i := by
    have h2 := List.find?_some hfind
    simpa using h2
  refine ⟨a, ha, hmap.symm, ?_⟩
  rw [← hmap]
  have hid : (mkSearchArtist db a).artist_id = a.id := rfl
  rw [hid, hpa]
  exact hi

lemma searchRows_map_id_sublist (db : Database) :
    ∀ ids : List String,
    ((ids.filterMap fun i =>
        (db.artists.find? fun a => a.id == i).map (mkSearchArtist db)).map
      fun r => r.artist_id).Sublist ids := by
  intro ids
  induction ids with
  | nil => simp
  | cons i rest ih =>
    rw [List.filterMap_cons]
    cases hf : (db.artists.find? fun a => a.id == i).map (mkSearchArtist db) with
    | none => exact ih.cons i
    | some r =>
      rw [List.map_cons]
      obtain ⟨a, hfind, hmap⟩ := Option.map_eq_some'.mp hf
      have hpa : a.id = i := by
        have h2 := List.find?_some hfind
        simpa using h2
      have hid : r.artist_id = i := by
        rw [← hmap]
        have : (mkSearchArtist db a).artist_id = a.id := rfl
        rw [this, hpa]
      rw [hid]
      exact ih.cons₂ i

lemma searchRankGe_total :
    ∀ x y : SearchArtist, searchRankGe x y = false → searchRankGe y x = true := by
  intro x y h
  simp [searchRankGe] at h ⊢
  omega

lemma searchRankGe_trans :
    ∀ x y z : SearchArtist, searchRankGe x y = true → searchRankGe y z = true →
    searchRankGe x z = true := by
  intro x y z h1 h2
  simp [searchRankGe] at h1 h2 ⊢
  omega

/-- C6 counterexample: with `limit = 1`, the FTS stage already returns one
id, so the `LIKE` scan is never merged — artist `a2` ("The Hit"), a
substring match of the query with the maximal similarity score, is absent
from the results while the non-matching `a1` is returned. -/
theorem c6_counterexample :
    ((get_artists_by_search c6Db [("a1", "Axx")] c6Score "hit" 1).map
        fun r => r.artist_id) = ["a1"] ∧
    likeContains "hit" "The Hit" = true ∧
    c6Score (pyLower "hit") (pyLower "The Hit") = 100 ∧
    c6Score (pyLower "hit") (pyLower "Axx") = 0 := by
  refine ⟨?_, ?_, ?_, ?_⟩ <;> decide

/-- C6 (amended): `get_artists_by_search` returns at most `limit` rows
ordered descending by `(fuzzy_score, play_count)`; each row is the detail
row of a stored artist re-scored against the lowercased raw query with the
similarity function; rows are deduplicated by artist id; every candidate
stems from the FTS rows or from a substring (`LIKE`) match of the artist
table; but the `LIKE` scan is merged only when the FTS stage yields fewer
than `limit` distinct ids — otherwise the results draw on the FTS rows
alone, substring matches are not merged in. -/
theorem c6_search_pipeline (db : Database) (ftsRows : List (String × String))
    (score : String → String → Int) (q : String) (limit : Nat) :
    (get_artists_by_search db ftsRows score q limit).length ≤ limit ∧
    (get_artists_by_search db ftsRows score q limit).Pairwise
      (fun x y => searchRankGe x y = true) ∧
    (∀ r ∈ get_artists_by_search db ftsRows score q limit, ∃ a ∈ db.artists,
      r = { mkSearchArtist db a with
              fuzzy_score := score (pyLower q) (pyLower a.name) }) ∧
    ((get_artists_by_search db ftsRows score q limit).map fun r => r.artist_id).Nodup ∧
    (∀ r ∈ get_artists_by_search db ftsRows score q limit,
      (r.artist_id ∈ ftsRows.map fun p => p.1) ∨
      ∃ a ∈ db.artists, r.artist_id = a.id ∧ likeContains q a.name = true) ∧
    (limit ≤ (dedupKeepFirst (ftsRows.map fun p => p.1)).length →
      ∀ r ∈ get_artists_by_search db ftsRows score q limit,
        r.artist_id ∈ ftsRows.map fun p => p.1) := by
  rw [get_artists_by_search_eq]
  have hnd := searchCandidates_nodup db ftsRows q limit
  by_cases hemp : (searchCandidates db ftsRows q limit).isEmpty
  · rw [searchCore, if_pos hemp]
    simp
  · rw [searchCore, if_neg hemp]
    simp only []
    have hmemid : ∀ r ∈ (stableSort searchRankGe
        (((searchCandidates db ftsRows q limit).filterMap fun i =>
            (db.artists.find? fun a => a.id == i).map (mkSearchArtist db)).map
          fun r => { r with
            fuzzy_score := score (pyLower q) (pyLower r.artist_name) })).take limit,
        ∃ a ∈ db.artists,
          r = { mkSearchArtist db a with
                  fuzzy_score := score (pyLower q) (pyLower a.name) } ∧
          r.artist_id ∈ searchCandidates db ftsRows q limit := by
      intro r hr
      have hr2 := (stableSort_perm _ _).mem_iff.mp ((List.take_sublist _ _).mem hr)
      obtain ⟨r0, hr0, hres⟩ := List.mem_map.mp hr2
      obtain ⟨a, ha, hr0a, hid⟩ := searchRows_mem db _ r0 hr0
      refine ⟨a, ha, ?_, ?_⟩
      · rw [← hres, hr0a]
        exact rfl
      · rw [← hres]
        have : ({ r0 with fuzzy_score := score (pyLower q) (pyLower r0.artist_name) }
            : SearchArtist).artist_id = r0.artist_id := rfl
        rw [this]
        exact hid
    refine ⟨List.length_take_le _ _, ?_, ?_, ?_, ?_, ?_⟩
    · refine List.Pairwise.sublist (List.take_sublist _ _) ?_
      have := stableSort_sorted searchRankGe searchRankGe_trans searchRankGe_total
        (((searchCandidates db ftsRows q limit).filterMap fun i =>
            (db.artists.find? fun a => a.id == i).map (mkSearchArtist db)).map
          fun r => { r with
            fuzzy_score := score (pyLower q) (pyLower r.artist_name) }) [] (by simp)
      simpa [stableSort] using this
    · intro r hr
      obtain ⟨a, ha, he, _⟩ := hmemid r hr
      exact ⟨a, ha, he⟩
    · have hsub1 : (((stableSort searchRankGe
          (((searchCandidates db ftsRows q limit).filterMap fun i =>
              (db.artists.find? fun a => a.id == i).map (mkSearchArtist db)).map
            fun r => { r with
              fuzzy_score := score (pyLower q) (pyLower r.artist_name) })).take
          limit).map fun r => r.artist_id).Sublist
          ((stableSort searchRankGe
            (((searchCandidates db ftsRows q limit).filterMap fun i =>
                (db.artists.find? fun a => a.id == i).map (mkSearchArtist db)).map
              fun r => { r with
                fuzzy_score := score (pyLower q) (pyLower r.artist_name) })).map
            fun r => r.artist_id) :=
        List.Sublist.map _ (List.take_sublist _ _)
      refine List.Nodup.sublist hsub1 ?_
      refine List.Perm.nodup ((List.Perm.map _ (stableSort_perm _ _)).symm) ?_
      rw [List.map_map]
      have hcomp : ((fun r : SearchArtist => r.artist_id) ∘ fun r =>
          { r with fuzzy_score := score (pyLower q) (pyLower r.artist_name) })
          = fun r : SearchArtist => r.artist_id := by
        funext r
        rfl
      rw [hcomp]
      exact List.Nodup.sublist (searchRows_map_id_sublist db _) hnd
    · intro r hr
      obtain ⟨a, _, _, hid⟩ := hmemid r hr
      exact searchCandidates_mem db ftsRows q limit r.artist_id hid
    · intro hfts r hr
      obtain ⟨a, _, _, hid⟩ := hmemid r hr
      rw [searchCandidates_fts_only db ftsRows q limit hfts] at hid
      exact mem_dedupKeepFirst hid

/-- Witness for C6: a concrete search run where the FTS stage is short and
the `LIKE` supplement fires, checked against the pipeline properties and
evaluated concretely. -/
theorem c6_search_pipeline_witness :
    ((get_artists_by_search c6Db [("a2", "The Hit")] c6Score "hit" 2).length ≤ 2 ∧
      (get_artists_by_search c6Db [("a2", "The Hit")] c6Score "hit" 2).Pairwise
        (fun x y => searchRankGe x y = true) ∧
      (∀ r ∈ get_artists_by_search c6Db [("a2", "The Hit")] c6Score "hit" 2,
        ∃ a ∈ c6Db.artists,
          r = { mkSearchArtist c6Db a with
                  fuzzy_score := c6Score (pyLower "hit") (pyLower a.name) }) ∧
      ((get_artists_by_search c6Db [("a2", "The Hit")] c6Score "hit" 2).map
          fun r => r.artist_id).Nodup ∧
      (∀ r ∈ get_artists_by_search c6Db [("a2", "The Hit")] c6Score "hit" 2,
        (r.artist_id ∈ [("a2", "The Hit")].map fun p => p.1) ∨
        ∃ a ∈ c6Db.artists, r.artist_id = a.id ∧ likeContains "hit" a.name = true) ∧
      (2 ≤ (dedupKeepFirst ([("a2", "The Hit")].map fun p => p.1)).length →
        ∀ r ∈ get_artists_by_search c6Db [("a2", "The Hit")] c6Score "hit" 2,
          r.artist_id ∈ [("a2", "The Hit")].map fun p => p.1)) ∧
    ((get_artists_by_search c6Db [("a2", "The Hit")] c6Score "hit" 2).map
        fun r => (r.artist_id, r.fuzzy_score)) = [("a2", 100)] :=
  ⟨c6_search_pipeline c6Db [("a2", "The Hit")] c6Score "hit" 2, by decide⟩

end Scrobbledb
